import Mathlib

/-!
Shallow embedding of the ScreenshotService repository core:
the browser/page pool (`src/browser-pool.js`) and the `/render`
request lifecycle handler (the express handler in the server file).

The pool is modelled as an explicit state machine.  Each event models one
atomic run-to-completion segment of the single-threaded JavaScript event
loop: an `acquirePage` call (which always enqueues the caller and then runs
`processQueue`), a `releasePage` call (which removes the page from its
browser and then runs `processQueue`), the queue-timeout timer callback,
the abort-signal callback, a standalone `processQueue` run (scheduled by
`setImmediate`), a browser disconnect, and `shutdown`.

Ghost fields (`resolved`, `enqueued`, `closedPages`, `closedBrowsers`)
record the externally observable history: how each queued request's promise
settled, and which pages / browsers were ever closed.
-/

namespace ScreenshotService

namespace BrowserPool

/-- How the promise of one `acquirePage` call settled. -/
inductive Outcome where
  | served (pid : Nat)
  | timedOut
  | aborted
  | abortedBeforeQueue
  | newPageFailed
deriving DecidableEq, Repr

/-- Is this outcome a successful lease? -/
def Outcome.isServed : Outcome → Bool
  | .served _ => true
  | _ => false

/-- One entry of `this.browsers`: `{ browser, pages: [] }`, with the
browser's connection state and a ghost identity. -/
structure BrowserInfo where
  bid : Nat
  pages : List Nat
  connected : Bool
deriving DecidableEq, Repr

/-- The mutable state of a `BrowserPool` instance, plus ghost history. -/
structure PoolState where
  maxBrowsers : Nat
  maxPagesPerBrowser : Nat
  browsers : List BrowserInfo
  queue : List Nat
  resolved : List (Nat × Outcome)
  enqueued : List Nat
  closedPages : List Nat
  closedBrowsers : List Nat
  nextEntryId : Nat
  nextPageId : Nat
  nextBrowserId : Nat
deriving DecidableEq, Repr

/-- All pages currently held by pooled browsers, in browser order. -/
def allPages (bs : List BrowserInfo) : List Nat :=
  bs.flatMap (fun b => b.pages)

/-- Replace the element at index `i` (no-op when out of range). -/
def modifyAt (l : List BrowserInfo) (i : Nat) (f : BrowserInfo → BrowserInfo) :
    List BrowserInfo :=
  match l[i]? with
  | some b => l.set i (f b)
  | none => l

/-- The scan loop of `processQueue`: iterate `this.browsers` looking for a
connected browser with a free page slot; a disconnected under-capacity
browser is removed (`removeBrowser`) mid-iteration, which — as in the
JavaScript `for...of` over the spliced array — makes the iterator skip the
element that slid into the removed position.  Returns the surviving list,
the index of the chosen browser (if any), and the updated ghost lists of
closed pages and closed browsers. -/
def scanLoop (maxPages : Nat) :
    Nat → List BrowserInfo → Nat → List Nat → List Nat →
      List BrowserInfo × Option Nat × List Nat × List Nat
  | 0, arr, _, cp, cb => (arr, none, cp, cb)
  | gas + 1, arr, idx, cp, cb =>
    if h : idx < arr.length then
      if (arr.get ⟨idx, h⟩).pages.length < maxPages then
        if (arr.get ⟨idx, h⟩).connected then (arr, some idx, cp, cb)
        else
          scanLoop maxPages gas (arr.eraseIdx idx) (idx + 1)
            (cp ++ (arr.get ⟨idx, h⟩).pages) (cb ++ [(arr.get ⟨idx, h⟩).bid])
      else scanLoop maxPages gas arr (idx + 1) cp cb
    else (arr, none, cp, cb)

/-- Serve the queue head from the browser at index `i` of `bs`
(the tail of `processQueue`: `queue.shift()`, `clearTimeout`, `newPage`). -/
def serveAt (s : PoolState) (bs : List BrowserInfo) (i : Nat) (newPageOk : Bool) :
    PoolState :=
  match s.queue with
  | [] => { s with browsers := bs }
  | eid :: rest =>
    if newPageOk then
      { s with
          browsers := modifyAt bs i (fun b => { b with pages := b.pages ++ [s.nextPageId] }),
          queue := rest,
          resolved := s.resolved ++ [(eid, Outcome.served s.nextPageId)],
          nextPageId := s.nextPageId + 1 }
    else
      { s with
          browsers := bs,
          queue := rest,
          resolved := s.resolved ++ [(eid, Outcome.newPageFailed)] }

/-- One `processQueue` run.  `launchOk` tells whether a lazy
`launchBrowser` would succeed, `newPageOk` whether `browser.newPage()`
would succeed.  When the launch fails the exception escapes `processQueue`
(there is no `catch`), so the queue and the resolutions are untouched. -/
def drain (launchOk newPageOk : Bool) (s : PoolState) : PoolState :=
  if s.queue.isEmpty then s
  else
    match scanLoop s.maxPagesPerBrowser s.browsers.length s.browsers 0
        s.closedPages s.closedBrowsers with
    | (bs, some i, cp, cb) =>
        serveAt { s with closedPages := cp, closedBrowsers := cb } bs i newPageOk
    | (bs, none, cp, cb) =>
        let s1 := { s with browsers := bs, closedPages := cp, closedBrowsers := cb }
        if bs.length < s.maxBrowsers then
          if launchOk then
            serveAt { s1 with nextBrowserId := s.nextBrowserId + 1 }
              (bs ++ [⟨s.nextBrowserId, [], true⟩]) bs.length newPageOk
          else s1
        else s1

/-- An `acquirePage` call.  If the caller's signal is already aborted the
promise rejects at once; otherwise the entry is pushed onto the queue and
`processQueue` runs. -/
def acquirePage (alreadyAborted launchOk newPageOk : Bool) (s : PoolState) :
    PoolState :=
  if alreadyAborted then
    { s with
        resolved := s.resolved ++ [(s.nextEntryId, Outcome.abortedBeforeQueue)],
        nextEntryId := s.nextEntryId + 1 }
  else
    drain launchOk newPageOk
      { s with
          queue := s.queue ++ [s.nextEntryId],
          enqueued := s.enqueued ++ [s.nextEntryId],
          nextEntryId := s.nextEntryId + 1 }

/-- Remove page `pid` from the first browser whose page list contains it
(the `indexOf`/`splice` loop of `releasePage`, which breaks after the first
hit).  Returns `none` when no pooled browser holds the page. -/
def removeFirstPage : List BrowserInfo → Nat → Option (List BrowserInfo)
  | [], _ => none
  | b :: bs, pid =>
    if pid ∈ b.pages then
      some ({ b with pages := b.pages.erase pid } :: bs)
    else
      match removeFirstPage bs pid with
      | some bs2 => some (b :: bs2)
      | none => none

/-- A `releasePage` call: splice the page out of its browser and close it,
then run `processQueue`.  When the page is in no pooled browser nothing is
closed, but `processQueue` still runs. -/
def releasePage (pid : Nat) (launchOk newPageOk : Bool) (s : PoolState) :
    PoolState :=
  match removeFirstPage s.browsers pid with
  | some bs =>
      drain launchOk newPageOk
        { s with browsers := bs, closedPages := s.closedPages ++ [pid] }
  | none => drain launchOk newPageOk s

/-- The queue-timeout timer callback for entry `eid`.  It can only fire
while the entry is still queued (serving and aborting both clear the
timer), and then splices the entry out and rejects it. -/
def queueTimeoutFire (eid : Nat) (s : PoolState) : PoolState :=
  if eid ∈ s.queue then
    { s with
        queue := s.queue.erase eid,
        resolved := s.resolved ++ [(eid, Outcome.timedOut)] }
  else s

/-- The abort-signal listener for entry `eid`: when the entry is still
queued it is spliced out and rejected; otherwise the callback finds no
queue entry and does nothing. -/
def abortFire (eid : Nat) (s : PoolState) : PoolState :=
  if eid ∈ s.queue then
    { s with
        queue := s.queue.erase eid,
        resolved := s.resolved ++ [(eid, Outcome.aborted)] }
  else s

/-- Environment event: the browser at index `i` loses its connection. -/
def disconnectAt (i : Nat) (s : PoolState) : PoolState :=
  { s with browsers := modifyAt s.browsers i (fun b => { b with connected := false }) }

/-- The `shutdown` loop: `for (const browserInfo of this.browsers)` calling
`removeBrowser`, which splices the current element — so the iterator skips
every other browser — followed by `this.browsers = []`. -/
def shutdownLoop :
    Nat → List BrowserInfo → Nat → List Nat → List Nat →
      List BrowserInfo × List Nat × List Nat
  | 0, arr, _, cp, cb => (arr, cp, cb)
  | gas + 1, arr, idx, cp, cb =>
    if h : idx < arr.length then
      shutdownLoop gas (arr.eraseIdx idx) (idx + 1)
        (cp ++ (arr.get ⟨idx, h⟩).pages) (cb ++ [(arr.get ⟨idx, h⟩).bid])
    else (arr, cp, cb)

/-- A `shutdown` call.  The queue is not touched: pending entries stay
queued and are never failed by shutdown. -/
def shutdown (s : PoolState) : PoolState :=
  match shutdownLoop s.browsers.length s.browsers 0 s.closedPages
      s.closedBrowsers with
  | (_, cp, cb) =>
    { s with browsers := [], closedPages := cp, closedBrowsers := cb }

/-- Events of the pool state machine. -/
inductive Event where
  | acquire (alreadyAborted launchOk newPageOk : Bool)
  | release (pid : Nat) (launchOk newPageOk : Bool)
  | timeoutFire (eid : Nat)
  | abortSignal (eid : Nat)
  | drainQueue (launchOk newPageOk : Bool)
  | disconnect (i : Nat)
  | shutdown
deriving DecidableEq, Repr

/-- The transition function of the pool state machine. -/
def step : Event → PoolState → PoolState
  | .acquire a lo po, s => acquirePage a lo po s
  | .release pid lo po, s => releasePage pid lo po s
  | .timeoutFire e, s => queueTimeoutFire e s
  | .abortSignal e, s => abortFire e s
  | .drainQueue lo po, s => drain lo po s
  | .disconnect i, s => disconnectAt i s
  | .shutdown, s => shutdown s

/-- Run a sequence of events. -/
def run (evs : List Event) (s : PoolState) : PoolState :=
  evs.foldl (fun t e => step e t) s

/-- The constructor's falsy-defaulting `options.maxBrowsers || 5`
(restricted to the naturals, where only `0` is falsy). -/
def orDefault (x d : Nat) : Nat :=
  if x = 0 then d else x

/-- The pool right after its constructor (which applies the `|| 5` and
`|| 10` defaults) and a fully successful `initialize()`: `maxBrowsers`
connected browsers, each with an empty page list. -/
def initState (mbOpt mpOpt : Nat) : PoolState :=
  { maxBrowsers := orDefault mbOpt 5,
    maxPagesPerBrowser := orDefault mpOpt 10,
    browsers := (List.range (orDefault mbOpt 5)).map (fun i => ⟨i, [], true⟩),
    queue := [],
    resolved := [],
    enqueued := [],
    closedPages := [],
    closedBrowsers := [],
    nextEntryId := 0,
    nextPageId := 0,
    nextBrowserId := orDefault mbOpt 5 }

/-! ### Elementary lemmas about the model's list operations -/

theorem allPages_nil : allPages [] = [] := rfl

theorem allPages_cons (b : BrowserInfo) (bs : List BrowserInfo) :
    allPages (b :: bs) = b.pages ++ allPages bs := rfl

theorem allPages_append (l1 l2 : List BrowserInfo) :
    allPages (l1 ++ l2) = allPages l1 ++ allPages l2 := by
  simp [allPages]

theorem allPages_sublist {l1 l2 : List BrowserInfo} (h : l1.Sublist l2) :
    (allPages l1).Sublist (allPages l2) := by
  induction h with
  | slnil => exact List.Sublist.refl _
  | cons b _ ih =>
    rw [allPages_cons]
    exact ih.trans (List.sublist_append_right _ _)
  | cons₂ b _ ih =>
    rw [allPages_cons, allPages_cons]
    exact ih.append_left _

theorem allPages_eraseIdx_perm (arr : List BrowserInfo) (i : Nat) (h : i < arr.length) :
    (allPages (arr.eraseIdx i) ++ (arr.get ⟨i, h⟩).pages).Perm (allPages arr) := by
  induction arr generalizing i with
  | nil => simp at h
  | cons b bs ih =>
    cases i with
    | zero =>
      simp only [List.eraseIdx_cons_zero, List.get_cons_zero, allPages_cons]
      exact List.perm_append_comm
    | succ j =>
      simp only [List.eraseIdx_cons_succ, allPages_cons, List.get_cons_succ,
        List.append_assoc]
      exact (ih j (by simpa using h)).append_left b.pages

theorem length_modifyAt (l : List BrowserInfo) (i : Nat) (f : BrowserInfo → BrowserInfo) :
    (modifyAt l i f).length = l.length := by
  unfold modifyAt
  cases h : l[i]? <;> simp

theorem modifyAt_cons_zero (b : BrowserInfo) (bs : List BrowserInfo)
    (f : BrowserInfo → BrowserInfo) :
    modifyAt (b :: bs) 0 f = f b :: bs := by
  unfold modifyAt
  simp

theorem modifyAt_cons_succ (b : BrowserInfo) (bs : List BrowserInfo) (i : Nat)
    (f : BrowserInfo → BrowserInfo) :
    modifyAt (b :: bs) (i + 1) f = b :: modifyAt bs i f := by
  unfold modifyAt
  cases h : bs[i]? <;> simp [h]

theorem mem_modifyAt {l : List BrowserInfo} {i : Nat} {f : BrowserInfo → BrowserInfo}
    {b2 : BrowserInfo} (h : b2 ∈ modifyAt l i f) :
    b2 ∈ l ∨ ∃ b, l[i]? = some b ∧ b2 = f b := by
  unfold modifyAt at h
  cases hl : l[i]? with
  | none => rw [hl] at h; exact Or.inl h
  | some b =>
    rw [hl] at h
    rcases List.mem_or_eq_of_mem_set h with h2 | h2
    · exact Or.inl h2
    · exact Or.inr ⟨b, rfl, h2⟩

theorem allPages_modifyAt_append (l : List BrowserInfo) (i : Nat) (x : Nat)
    (h : i < l.length) :
    (allPages (modifyAt l i (fun b => { b with pages := b.pages ++ [x] }))).Perm
      (x :: allPages l) := by
  induction l generalizing i with
  | nil => simp at h
  | cons b bs ih =>
    cases i with
    | zero =>
      rw [modifyAt_cons_zero]
      simp only [allPages_cons, List.append_assoc, List.singleton_append]
      exact List.perm_middle
    | succ j =>
      rw [modifyAt_cons_succ, allPages_cons]
      refine ((ih j (by simpa using h)).append_left b.pages).trans ?_
      rw [allPages_cons]
      exact List.perm_middle

theorem allPages_modifyAt_of_pages_eq (l : List BrowserInfo) (i : Nat)
    (f : BrowserInfo → BrowserInfo) (hf : ∀ b, (f b).pages = b.pages) :
    allPages (modifyAt l i f) = allPages l := by
  induction l generalizing i with
  | nil => rfl
  | cons b bs ih =>
    cases i with
    | zero =>
      rw [modifyAt_cons_zero]
      simp only [allPages_cons, hf]
    | succ j =>
      rw [modifyAt_cons_succ, allPages_cons, allPages_cons, ih]

/-! ### Specifications of the scan and shutdown loops -/

theorem append_swap_perm (a p d t : List Nat) (h1 : (a ++ d).Perm t) :
    (a ++ (p ++ d)).Perm (t ++ p) := by
  have h2 : (a ++ (p ++ d)).Perm (a ++ (d ++ p)) :=
    List.Perm.append_left _ List.perm_append_comm
  refine h2.trans ?_
  rw [← List.append_assoc]
  exact h1.append_right _

theorem scanLoop_spec (mp : Nat) (gas : Nat) :
    ∀ (arr : List BrowserInfo) (idx : Nat) (cp cb : List Nat) bs f cp2 cb2,
      scanLoop mp gas arr idx cp cb = (bs, f, cp2, cb2) →
      bs.Sublist arr ∧
      (∀ i, f = some i →
        ∃ b, bs[i]? = some b ∧ b.pages.length < mp ∧ b.connected = true) ∧
      ∃ d, cp2 = cp ++ d ∧ (allPages bs ++ d).Perm (allPages arr) := by
  induction gas with
  | zero =>
    intro arr idx cp cb bs f cp2 cb2 heq
    rw [scanLoop] at heq
    simp only [Prod.mk.injEq] at heq
    obtain ⟨rfl, rfl, rfl, rfl⟩ := heq
    refine ⟨List.Sublist.refl _, ?_, [], by simp, by simp⟩
    intro i hi
    exact absurd hi (by simp)
  | succ g ih =>
    intro arr idx cp cb bs f cp2 cb2 heq
    rw [scanLoop] at heq
    by_cases h : idx < arr.length
    · rw [dif_pos h] at heq
      by_cases hlt : (arr.get ⟨idx, h⟩).pages.length < mp
      · rw [if_pos hlt] at heq
        by_cases hcon : (arr.get ⟨idx, h⟩).connected = true
        · rw [if_pos hcon] at heq
          simp only [Prod.mk.injEq] at heq
          obtain ⟨rfl, rfl, rfl, rfl⟩ := heq
          refine ⟨List.Sublist.refl _, ?_, [], by simp, by simp⟩
          intro i hi
          injection hi with hi
          subst hi
          exact ⟨arr.get ⟨idx, h⟩, List.getElem?_eq_getElem h, hlt, hcon⟩
        · rw [if_neg hcon] at heq
          obtain ⟨hsub, hfound, d0, hd0, hperm0⟩ := ih _ _ _ _ _ _ _ _ heq
          refine ⟨hsub.trans (List.eraseIdx_sublist arr idx), hfound,
            (arr.get ⟨idx, h⟩).pages ++ d0, by rw [hd0, List.append_assoc], ?_⟩
          exact (append_swap_perm _ _ _ _ hperm0).trans
            (allPages_eraseIdx_perm arr idx h)
      · rw [if_neg hlt] at heq
        exact ih _ _ _ _ _ _ _ _ heq
    · rw [dif_neg h] at heq
      simp only [Prod.mk.injEq] at heq
      obtain ⟨rfl, rfl, rfl, rfl⟩ := heq
      refine ⟨List.Sublist.refl _, ?_, [], by simp, by simp⟩
      intro i hi
      exact absurd hi (by simp)

theorem shutdownLoop_spec (gas : Nat) :
    ∀ (arr : List BrowserInfo) (idx : Nat) (cp cb : List Nat) bs cp2 cb2,
      shutdownLoop gas arr idx cp cb = (bs, cp2, cb2) →
      ∃ d, cp2 = cp ++ d ∧ (allPages bs ++ d).Perm (allPages arr) := by
  induction gas with
  | zero =>
    intro arr idx cp cb bs cp2 cb2 heq
    rw [shutdownLoop] at heq
    simp only [Prod.mk.injEq] at heq
    obtain ⟨rfl, rfl, rfl⟩ := heq
    exact ⟨[], by simp, by simp⟩
  | succ g ih =>
    intro arr idx cp cb bs cp2 cb2 heq
    rw [shutdownLoop] at heq
    by_cases h : idx < arr.length
    · rw [dif_pos h] at heq
      obtain ⟨d0, hd0, hperm0⟩ := ih _ _ _ _ _ _ _ heq
      refine ⟨(arr.get ⟨idx, h⟩).pages ++ d0, by rw [hd0, List.append_assoc], ?_⟩
      exact (append_swap_perm _ _ _ _ hperm0).trans
        (allPages_eraseIdx_perm arr idx h)
    · rw [dif_neg h] at heq
      simp only [Prod.mk.injEq] at heq
      obtain ⟨rfl, rfl, rfl⟩ := heq
      exact ⟨[], by simp, by simp⟩

/-! ### Specification of removeFirstPage -/

theorem removeFirstPage_eq_none_iff (bs : List BrowserInfo) (pid : Nat) :
    removeFirstPage bs pid = none ↔ pid ∉ allPages bs := by
  induction bs with
  | nil => simp [removeFirstPage, allPages_nil]
  | cons b t ih =>
    rw [removeFirstPage]
    by_cases hp : pid ∈ b.pages
    · simp [hp, allPages_cons]
    · simp only [if_neg hp, allPages_cons, List.mem_append]
      cases hr : removeFirstPage t pid with
      | some bs2 =>
        rw [hr] at ih
        simp only [reduceCtorEq, false_iff, not_not] at ih
        simp [hp, ih]
      | none =>
        rw [hr] at ih
        simp [hp, ih.mp rfl]

theorem removeFirstPage_spec {bs : List BrowserInfo} {pid : Nat}
    {bs2 : List BrowserInfo} (h : removeFirstPage bs pid = some bs2) :
    (pid :: allPages bs2).Perm (allPages bs) ∧ bs2.length = bs.length ∧
    ∀ b2 ∈ bs2, b2 ∈ bs ∨
      ∃ b, b ∈ bs ∧ b2 = { b with pages := b.pages.erase pid } := by
  induction bs generalizing bs2 with
  | nil => simp [removeFirstPage] at h
  | cons b t ih =>
    rw [removeFirstPage] at h
    by_cases hp : pid ∈ b.pages
    · rw [if_pos hp] at h
      injection h with h
      subst h
      refine ⟨?_, by simp, ?_⟩
      · simp only [allPages_cons]
        show (pid :: ((b.pages.erase pid) ++ allPages t)).Perm _
        have h1 : (pid :: b.pages.erase pid).Perm b.pages :=
          (List.perm_cons_erase hp).symm
        exact h1.append_right (allPages t)
      · intro b2 hb2
        rcases List.mem_cons.mp hb2 with h2 | h2
        · exact Or.inr ⟨b, List.mem_cons_self _ _, h2⟩
        · exact Or.inl (List.mem_cons_of_mem _ h2)
    · rw [if_neg hp] at h
      cases hr : removeFirstPage t pid with
      | none => rw [hr] at h; exact absurd h (by simp)
      | some bs3 =>
        rw [hr] at h
        injection h with h
        subst h
        obtain ⟨hperm, hlen, hmem⟩ := ih hr
        refine ⟨?_, by simp [hlen], ?_⟩
        · simp only [allPages_cons]
          refine List.Perm.trans ?_ (hperm.append_left b.pages)
          exact (@List.perm_middle _ pid b.pages (allPages bs3)).symm
        · intro b2 hb2
          rcases List.mem_cons.mp hb2 with h2 | h2
          · exact Or.inl (h2 ▸ List.mem_cons_self _ _)
          · rcases hmem b2 h2 with h3 | ⟨b0, hb0, h3⟩
            · exact Or.inl (List.mem_cons_of_mem _ h3)
            · exact Or.inr ⟨b0, List.mem_cons_of_mem _ hb0, h3⟩

theorem removeFirstPage_mem {bs : List BrowserInfo} {pid : Nat}
    {bs2 : List BrowserInfo} (h : removeFirstPage bs pid = some bs2) :
    pid ∈ allPages bs :=
  (removeFirstPage_spec h).1.mem_iff.mp (List.mem_cons_self _ _)

/-! ### The pool invariant -/

/-- The inductive invariant of the pool state machine. -/
structure Inv (s : PoolState) : Prop where
  mp_pos : 1 ≤ s.maxPagesPerBrowser
  browsers_le : s.browsers.length ≤ s.maxBrowsers
  pages_le : ∀ b ∈ s.browsers, b.pages.length ≤ s.maxPagesPerBrowser
  queue_nodup : s.queue.Nodup
  queue_lt : ∀ e ∈ s.queue, e < s.nextEntryId
  queue_enqueued : ∀ e ∈ s.queue, e ∈ s.enqueued
  queue_unresolved : ∀ e ∈ s.queue, e ∉ s.resolved.map Prod.fst
  enqueued_lt : ∀ e ∈ s.enqueued, e < s.nextEntryId
  resolved_nodup : (s.resolved.map Prod.fst).Nodup
  resolved_lt : ∀ p ∈ s.resolved, p.1 < s.nextEntryId
  resolved_outcome : ∀ p ∈ s.resolved,
    (p.1 ∈ s.enqueued ↔ p.2 ≠ Outcome.abortedBeforeQueue)
  pages_nodup : (allPages s.browsers).Nodup
  pages_lt : ∀ p ∈ allPages s.browsers, p < s.nextPageId
  closed_nodup : s.closedPages.Nodup
  closed_lt : ∀ p ∈ s.closedPages, p < s.nextPageId
  closed_active : ∀ p ∈ s.closedPages, p ∉ allPages s.browsers

/-! ### Invariant preservation -/

theorem serveAt_inv (s : PoolState) (bs : List BrowserInfo) (i : Nat) (po : Bool)
    (hInv : Inv { s with browsers := bs })
    (hslot : s.queue ≠ [] → po = true →
      ∃ b, bs[i]? = some b ∧ b.pages.length < s.maxPagesPerBrowser) :
    Inv (serveAt s bs i po) := by
  obtain ⟨mp_pos, hble, hple, hqnd, hqlt, hqen, hqur, henlt, hrnd, hrlt, hrout,
    hpnd, hplt, hcnd, hclt, hcact⟩ := hInv
  dsimp only at mp_pos hble hple hqnd hqlt hqen hqur henlt hrnd hrlt hrout hpnd hplt hcnd hclt hcact
  unfold serveAt
  cases hq : s.queue with
  | nil => exact ⟨mp_pos, hble, hple, by simp, by simp, by simp, by simp, henlt,
      hrnd, hrlt, hrout, hpnd, hplt, hcnd, hclt, hcact⟩
  | cons eid rest =>
    dsimp only
    rw [hq] at hqnd hqlt hqen hqur
    have heid_lt : eid < s.nextEntryId := hqlt eid (List.mem_cons_self _ _)
    have heid_en : eid ∈ s.enqueued := hqen eid (List.mem_cons_self _ _)
    have heid_ur : eid ∉ s.resolved.map Prod.fst :=
      hqur eid (List.mem_cons_self _ _)
    have hrest_nd : rest.Nodup := (List.nodup_cons.mp hqnd).2
    have heid_rest : eid ∉ rest := (List.nodup_cons.mp hqnd).1
    have hqlt2 : ∀ e ∈ rest, e < s.nextEntryId :=
      fun e he => hqlt e (List.mem_cons_of_mem _ he)
    have hqen2 : ∀ e ∈ rest, e ∈ s.enqueued :=
      fun e he => hqen e (List.mem_cons_of_mem _ he)
    have hqur2 : ∀ o, ∀ e ∈ rest,
        e ∉ List.map Prod.fst (s.resolved ++ [(eid, o)]) := by
      intro o e he h1
      rw [List.map_append] at h1
      rcases List.mem_append.mp h1 with h2 | h2
      · exact hqur e (List.mem_cons_of_mem _ he) h2
      · have : e = eid := by simpa using h2
        exact heid_rest (this ▸ he)
    have hrnd2 : ∀ o, (List.map Prod.fst (s.resolved ++ [(eid, o)])).Nodup := by
      intro o
      rw [List.map_append]
      refine List.Nodup.append hrnd (by simp) ?_
      intro a ha hb
      have : a = eid := by simpa using hb
      subst this
      exact heid_ur ha
    have hrlt2 : ∀ o, ∀ p ∈ s.resolved ++ [(eid, o)], p.1 < s.nextEntryId := by
      intro o p hp
      rcases List.mem_append.mp hp with h1 | h1
      · exact hrlt p h1
      · have : p = (eid, o) := by simpa using h1
        subst this
        exact heid_lt
    have hrout2 : ∀ o, o ≠ Outcome.abortedBeforeQueue →
        ∀ p ∈ s.resolved ++ [(eid, o)],
          (p.1 ∈ s.enqueued ↔ p.2 ≠ Outcome.abortedBeforeQueue) := by
      intro o ho p hp
      rcases List.mem_append.mp hp with h1 | h1
      · exact hrout p h1
      · have : p = (eid, o) := by simpa using h1
        subst this
        simpa [heid_en] using fun h => absurd h ho
    cases po with
    | false =>
      rw [if_neg Bool.false_ne_true]
      exact ⟨mp_pos, hble, hple, hrest_nd, hqlt2, hqen2, hqur2 _, henlt,
        hrnd2 _, hrlt2 _, hrout2 _ (by simp), hpnd, hplt, hcnd, hclt, hcact⟩
    | true =>
      rw [if_pos rfl]
      obtain ⟨b0, hb0, hb0lt⟩ := hslot (by rw [hq]; simp) rfl
      have hi_lt : i < bs.length := (List.getElem?_eq_some.mp hb0).1
      have hperm := allPages_modifyAt_append bs i s.nextPageId hi_lt
      have hfresh : s.nextPageId ∉ allPages bs := fun hmem =>
        Nat.lt_irrefl _ (hplt _ hmem)
      refine ⟨mp_pos, ?_, ?_, hrest_nd, hqlt2, hqen2, hqur2 _, henlt,
        hrnd2 _, hrlt2 _, hrout2 _ (by simp), ?_, ?_, hcnd, ?_, ?_⟩
      · show (modifyAt bs i _).length ≤ s.maxBrowsers
        rw [length_modifyAt]
        exact hble
      · intro b2 hb2
        rcases mem_modifyAt hb2 with h1 | ⟨b, hb, rfl⟩
        · exact hple b2 h1
        · rw [hb0] at hb
          injection hb with hbb
          have hlt2 : b.pages.length < s.maxPagesPerBrowser := hbb ▸ hb0lt
          show (b.pages ++ [s.nextPageId]).length ≤ s.maxPagesPerBrowser
          simp only [List.length_append, List.length_singleton]
          omega
      · exact hperm.nodup_iff.mpr (List.nodup_cons.mpr ⟨hfresh, hpnd⟩)
      · intro p hp
        have h1 := hperm.mem_iff.mp hp
        rcases List.mem_cons.mp h1 with h2 | h2
        · show p < s.nextPageId + 1
          omega
        · have := hplt p h2
          show p < s.nextPageId + 1
          omega
      · intro p hp
        have := hclt p hp
        show p < s.nextPageId + 1
        omega
      · intro p hp hmem
        have h1 := hperm.mem_iff.mp hmem
        rcases List.mem_cons.mp h1 with h2 | h2
        · exact Nat.lt_irrefl _ (h2 ▸ hclt p hp)
        · exact hcact p hp h2

theorem scan_inv (s : PoolState) (hInv : Inv s) {bs : List BrowserInfo}
    {f : Option Nat} {cp cb : List Nat}
    (h : scanLoop s.maxPagesPerBrowser s.browsers.length s.browsers 0
      s.closedPages s.closedBrowsers = (bs, f, cp, cb)) :
    Inv { s with browsers := bs, closedPages := cp, closedBrowsers := cb } := by
  obtain ⟨hsub, _, d, hcp, hperm⟩ := scanLoop_spec _ _ _ _ _ _ bs f cp cb h
  obtain ⟨mp_pos, hble, hple, hqnd, hqlt, hqen, hqur, henlt, hrnd, hrlt, hrout,
    hpnd, hplt, hcnd, hclt, hcact⟩ := hInv
  subst hcp
  have hbig : (allPages bs ++ d).Nodup := hperm.nodup_iff.mpr hpnd
  obtain ⟨hnd_bs, hnd_d, hdisj⟩ := List.nodup_append.mp hbig
  have hsubset : ∀ x, x ∈ allPages bs ++ d → x ∈ allPages s.browsers :=
    fun x hx => hperm.mem_iff.mp hx
  refine ⟨mp_pos, ?_, ?_, hqnd, hqlt, hqen, hqur, henlt, hrnd, hrlt, hrout,
    hnd_bs, ?_, ?_, ?_, ?_⟩
  · exact hsub.length_le.trans hble
  · exact fun b hb => hple b (hsub.subset hb)
  · exact fun p hp => hplt p (hsubset p (List.mem_append_left _ hp))
  · refine List.Nodup.append hcnd hnd_d ?_
    intro a ha hb
    exact hcact a ha (hsubset a (List.mem_append_right _ hb))
  · intro p hp
    rcases List.mem_append.mp hp with h1 | h1
    · exact hclt p h1
    · exact hplt p (hsubset p (List.mem_append_right _ h1))
  · intro p hp hmem
    rcases List.mem_append.mp hp with h1 | h1
    · exact hcact p h1 (hsubset p (List.mem_append_left _ hmem))
    · exact hdisj hmem h1

theorem drain_inv (lo po : Bool) (s : PoolState) (hInv : Inv s) :
    Inv (drain lo po s) := by
  unfold drain
  split
  · exact hInv
  rcases hscan : scanLoop s.maxPagesPerBrowser s.browsers.length s.browsers 0
    s.closedPages s.closedBrowsers with ⟨bs, f, cp, cb⟩
  have hscanInv := scan_inv s hInv hscan
  obtain ⟨_, hfound, _, _, _⟩ := scanLoop_spec _ _ _ _ _ _ bs f cp cb hscan
  cases f with
  | some i =>
    dsimp only
    apply serveAt_inv
    · exact hscanInv
    · intro _ _
      obtain ⟨b, hb, hlt, _⟩ := hfound i rfl
      exact ⟨b, hb, hlt⟩
  | none =>
    dsimp only
    split
    · split
      · apply serveAt_inv
        · obtain ⟨mp_pos, hble, hple, hqnd, hqlt, hqen, hqur, henlt, hrnd, hrlt,
            hrout, hpnd, hplt, hcnd, hclt, hcact⟩ := hscanInv
          dsimp only at mp_pos hble hple hqnd hqlt hqen hqur henlt hrnd hrlt hrout hpnd hplt hcnd hclt hcact
          have hap : allPages (bs ++ [⟨s.nextBrowserId, [], true⟩]) = allPages bs := by
            rw [allPages_append]
            simp [allPages_cons, allPages_nil]
          refine ⟨mp_pos, ?_, ?_, hqnd, hqlt, hqen, hqur, henlt, hrnd, hrlt,
            hrout, ?_, ?_, hcnd, hclt, ?_⟩
          · simp only [List.length_append, List.length_singleton]
            omega
          · intro b hb
            rcases List.mem_append.mp hb with h1 | h1
            · exact hple b h1
            · have hb1 : b = ⟨s.nextBrowserId, [], true⟩ := by simpa using h1
              subst hb1
              show ([] : List Nat).length ≤ s.maxPagesPerBrowser
              simp
          · rw [show allPages (bs ++ [(⟨s.nextBrowserId, [], true⟩ : BrowserInfo)]) = allPages bs from hap]
            exact hpnd
          · rw [show allPages (bs ++ [(⟨s.nextBrowserId, [], true⟩ : BrowserInfo)]) = allPages bs from hap]
            exact hplt
          · rw [show allPages (bs ++ [(⟨s.nextBrowserId, [], true⟩ : BrowserInfo)]) = allPages bs from hap]
            exact hcact
        · intro _ _
          refine ⟨⟨s.nextBrowserId, [], true⟩, ?_, hInv.mp_pos⟩
          exact List.getElem?_concat_length bs _
      · exact hscanInv
    · exact hscanInv

theorem acquirePage_inv (a lo po : Bool) (s : PoolState) (hInv : Inv s) :
    Inv (acquirePage a lo po s) := by
  obtain ⟨mp_pos, hble, hple, hqnd, hqlt, hqen, hqur, henlt, hrnd, hrlt, hrout,
    hpnd, hplt, hcnd, hclt, hcact⟩ := hInv
  have hid_res : s.nextEntryId ∉ List.map Prod.fst s.resolved := by
    intro hmem
    obtain ⟨p, hp, he⟩ := List.mem_map.mp hmem
    have := hrlt p hp
    omega
  have hid_en : s.nextEntryId ∉ s.enqueued := by
    intro hmem
    have := henlt _ hmem
    omega
  have hid_q : s.nextEntryId ∉ s.queue := by
    intro hmem
    have := hqlt _ hmem
    omega
  unfold acquirePage
  cases a with
  | true =>
    rw [if_pos rfl]
    refine ⟨mp_pos, hble, hple, hqnd, ?_, hqen, ?_, ?_, ?_, ?_, ?_,
      hpnd, hplt, hcnd, hclt, hcact⟩
    all_goals try dsimp only
    · intro e he
      have := hqlt e he
      omega
    · intro e he h1
      rw [List.map_append] at h1
      rcases List.mem_append.mp h1 with h2 | h2
      · exact hqur e he h2
      · have : e = s.nextEntryId := by simpa using h2
        exact hid_q (this ▸ he)
    · intro e he
      have := henlt e he
      omega
    · rw [List.map_append]
      refine List.Nodup.append hrnd (by simp) ?_
      intro x hx hy
      have : x = s.nextEntryId := by simpa using hy
      exact hid_res (this ▸ hx)
    · intro p hp
      rcases List.mem_append.mp hp with h1 | h1
      · have := hrlt p h1
        omega
      · have : p = (s.nextEntryId, Outcome.abortedBeforeQueue) := by simpa using h1
        subst this
        omega
    · intro p hp
      rcases List.mem_append.mp hp with h1 | h1
      · exact hrout p h1
      · have : p = (s.nextEntryId, Outcome.abortedBeforeQueue) := by simpa using h1
        subst this
        simp [hid_en]
  | false =>
    rw [if_neg Bool.false_ne_true]
    apply drain_inv
    refine ⟨mp_pos, hble, hple, ?_, ?_, ?_, ?_, ?_, hrnd, ?_, ?_,
      hpnd, hplt, hcnd, hclt, hcact⟩
    all_goals try dsimp only
    · simp only [List.nodup_append, List.nodup_singleton]
      exact ⟨hqnd, by simp, by
        intro x hx hy
        have : x = s.nextEntryId := by simpa using hy
        exact hid_q (this ▸ hx)⟩
    · intro e he
      rcases List.mem_append.mp he with h1 | h1
      · have := hqlt e h1
        omega
      · have : e = s.nextEntryId := by simpa using h1
        omega
    · intro e he
      rcases List.mem_append.mp he with h1 | h1
      · exact List.mem_append_left _ (hqen e h1)
      · exact List.mem_append_right _ h1
    · intro e he
      rcases List.mem_append.mp he with h1 | h1
      · exact hqur e h1
      · have : e = s.nextEntryId := by simpa using h1
        exact this ▸ hid_res
    · intro e he
      rcases List.mem_append.mp he with h1 | h1
      · have := henlt e h1
        omega
      · have : e = s.nextEntryId := by simpa using h1
        omega
    · intro p hp
      have := hrlt p hp
      omega
    · intro p hp
      have h1 := hrout p hp
      have h2 : p.1 ≠ s.nextEntryId := by
        have := hrlt p hp
        omega
      constructor
      · intro hmem
        rcases List.mem_append.mp hmem with h3 | h3
        · exact h1.mp h3
        · exact absurd (by simpa using h3) h2
      · intro ho
        exact List.mem_append_left _ (h1.mpr ho)

theorem removeResolve_inv (s : PoolState) (hInv : Inv s) (eid : Nat) (o : Outcome)
    (ho : o ≠ Outcome.abortedBeforeQueue) (he : eid ∈ s.queue) :
    Inv { s with queue := s.queue.erase eid,
                 resolved := s.resolved ++ [(eid, o)] } := by
  obtain ⟨mp_pos, hble, hple, hqnd, hqlt, hqen, hqur, henlt, hrnd, hrlt, hrout,
    hpnd, hplt, hcnd, hclt, hcact⟩ := hInv
  have heid_lt := hqlt eid he
  have heid_en := hqen eid he
  have heid_ur := hqur eid he
  have hmem_erase : ∀ e, e ∈ s.queue.erase eid → e ≠ eid ∧ e ∈ s.queue :=
    fun e h1 => (hqnd.mem_erase_iff.mp h1)
  refine ⟨mp_pos, hble, hple, hqnd.erase eid, ?_, ?_, ?_, henlt, ?_, ?_, ?_,
    hpnd, hplt, hcnd, hclt, hcact⟩
  all_goals try dsimp only
  · exact fun e h1 => hqlt e (hmem_erase e h1).2
  · exact fun e h1 => hqen e (hmem_erase e h1).2
  · intro e h1 h2
    rw [List.map_append] at h2
    rcases List.mem_append.mp h2 with h3 | h3
    · exact hqur e (hmem_erase e h1).2 h3
    · exact (hmem_erase e h1).1 (by simpa using h3)
  · rw [List.map_append]
    refine List.Nodup.append hrnd (by simp) ?_
    intro x hx hy
    have : x = eid := by simpa using hy
    exact heid_ur (this ▸ hx)
  · intro p hp
    rcases List.mem_append.mp hp with h1 | h1
    · exact hrlt p h1
    · have : p = (eid, o) := by simpa using h1
      subst this
      exact heid_lt
  · intro p hp
    rcases List.mem_append.mp hp with h1 | h1
    · exact hrout p h1
    · have : p = (eid, o) := by simpa using h1
      subst this
      simpa [heid_en] using fun h => absurd h ho

theorem queueTimeoutFire_inv (eid : Nat) (s : PoolState) (hInv : Inv s) :
    Inv (queueTimeoutFire eid s) := by
  unfold queueTimeoutFire
  split
  · exact removeResolve_inv s hInv eid _ (by simp) (by assumption)
  · exact hInv

theorem abortFire_inv (eid : Nat) (s : PoolState) (hInv : Inv s) :
    Inv (abortFire eid s) := by
  unfold abortFire
  split
  · exact removeResolve_inv s hInv eid _ (by simp) (by assumption)
  · exact hInv

theorem releasePage_inv (pid : Nat) (lo po : Bool) (s : PoolState) (hInv : Inv s) :
    Inv (releasePage pid lo po s) := by
  unfold releasePage
  cases hrm : removeFirstPage s.browsers pid with
  | none => exact drain_inv lo po s hInv
  | some bs2 =>
    dsimp only
    apply drain_inv
    obtain ⟨hperm, hlen, hmem⟩ := removeFirstPage_spec hrm
    obtain ⟨mp_pos, hble, hple, hqnd, hqlt, hqen, hqur, henlt, hrnd, hrlt, hrout,
      hpnd, hplt, hcnd, hclt, hcact⟩ := hInv
    have hcons : (pid :: allPages bs2).Nodup := hperm.nodup_iff.mpr hpnd
    obtain ⟨hpid_not, hnd2⟩ := List.nodup_cons.mp hcons
    have hpid_mem : pid ∈ allPages s.browsers := removeFirstPage_mem hrm
    have hpid_lt : pid < s.nextPageId := hplt pid hpid_mem
    have hsubset : ∀ x, x ∈ allPages bs2 → x ∈ allPages s.browsers :=
      fun x hx => hperm.mem_iff.mp (List.mem_cons_of_mem _ hx)
    refine ⟨mp_pos, ?_, ?_, hqnd, hqlt, hqen, hqur, henlt, hrnd, hrlt, hrout,
      hnd2, ?_, ?_, ?_, ?_⟩
    all_goals try dsimp only
    · rw [hlen]
      exact hble
    · intro b2 hb2
      rcases hmem b2 hb2 with h1 | ⟨b, hb, rfl⟩
      · exact hple b2 h1
      · show (b.pages.erase pid).length ≤ s.maxPagesPerBrowser
        exact le_trans (List.erase_sublist _ _).length_le (hple b hb)
    · exact fun p hp => hplt p (hsubset p hp)
    · refine List.Nodup.append hcnd (by simp) ?_
      intro x hx hy
      have : x = pid := by simpa using hy
      subst this
      exact hcact x hx hpid_mem
    · intro p hp
      rcases List.mem_append.mp hp with h1 | h1
      · exact hclt p h1
      · have : p = pid := by simpa using h1
        subst this
        exact hpid_lt
    · intro p hp hm
      rcases List.mem_append.mp hp with h1 | h1
      · exact hcact p h1 (hsubset p hm)
      · have : p = pid := by simpa using h1
        subst this
        exact hpid_not hm

theorem disconnectAt_inv (i : Nat) (s : PoolState) (hInv : Inv s) :
    Inv (disconnectAt i s) := by
  obtain ⟨mp_pos, hble, hple, hqnd, hqlt, hqen, hqur, henlt, hrnd, hrlt, hrout,
    hpnd, hplt, hcnd, hclt, hcact⟩ := hInv
  have hap := allPages_modifyAt_of_pages_eq s.browsers i
    (fun b => { b with connected := false }) (fun b => rfl)
  unfold disconnectAt
  refine ⟨mp_pos, ?_, ?_, hqnd, hqlt, hqen, hqur, henlt, hrnd, hrlt, hrout,
    ?_, ?_, hcnd, hclt, ?_⟩
  all_goals try dsimp only
  · rw [length_modifyAt]
    exact hble
  · intro b2 hb2
    rcases mem_modifyAt hb2 with h1 | ⟨b, hb, rfl⟩
    · exact hple b2 h1
    · exact hple b (List.getElem?_mem hb)
  · rw [hap]
    exact hpnd
  · rw [hap]
    exact hplt
  · rw [hap]
    exact hcact

theorem shutdown_inv (s : PoolState) (hInv : Inv s) : Inv (shutdown s) := by
  obtain ⟨mp_pos, hble, hple, hqnd, hqlt, hqen, hqur, henlt, hrnd, hrlt, hrout,
    hpnd, hplt, hcnd, hclt, hcact⟩ := hInv
  unfold shutdown
  rcases hsl : shutdownLoop s.browsers.length s.browsers 0 s.closedPages
    s.closedBrowsers with ⟨bsRem, cp2, cb2⟩
  obtain ⟨d, hcp, hperm⟩ := shutdownLoop_spec _ _ _ _ _ bsRem cp2 cb2 hsl
  subst hcp
  have hbig : (allPages bsRem ++ d).Nodup := hperm.nodup_iff.mpr hpnd
  obtain ⟨_, hnd_d, _⟩ := List.nodup_append.mp hbig
  have hsubset : ∀ x, x ∈ d → x ∈ allPages s.browsers :=
    fun x hx => hperm.mem_iff.mp (List.mem_append_right _ hx)
  refine ⟨mp_pos, by simp, by simp, hqnd, hqlt, hqen, hqur, henlt, hrnd, hrlt,
    hrout, by simp [allPages_nil], by simp [allPages_nil], ?_, ?_, ?_⟩
  all_goals try dsimp only
  · refine List.Nodup.append hcnd hnd_d ?_
    intro a ha hb
    exact hcact a ha (hsubset a hb)
  · intro p hp
    rcases List.mem_append.mp hp with h1 | h1
    · exact hclt p h1
    · exact hplt p (hsubset p h1)
  · intro p hp
    simp [allPages_nil]

theorem step_inv (ev : Event) (s : PoolState) (hInv : Inv s) :
    Inv (step ev s) := by
  cases ev with
  | acquire a lo po => exact acquirePage_inv a lo po s hInv
  | release pid lo po => exact releasePage_inv pid lo po s hInv
  | timeoutFire e => exact queueTimeoutFire_inv e s hInv
  | abortSignal e => exact abortFire_inv e s hInv
  | drainQueue lo po => exact drain_inv lo po s hInv
  | disconnect i => exact disconnectAt_inv i s hInv
  | shutdown => exact shutdown_inv s hInv

theorem run_inv (evs : List Event) (s : PoolState) (hInv : Inv s) :
    Inv (run evs s) := by
  induction evs generalizing s with
  | nil => exact hInv
  | cons e t ih => exact ih (step e s) (step_inv e s hInv)

theorem allPages_fresh (l : List Nat) :
    allPages (l.map (fun i => (⟨i, [], true⟩ : BrowserInfo))) = [] := by
  induction l with
  | nil => rfl
  | cons x t ih => rw [List.map_cons, allPages_cons, ih]; rfl

theorem initState_inv (mbOpt mpOpt : Nat) : Inv (initState mbOpt mpOpt) := by
  refine ⟨?_, by simp [initState], by simp [initState, List.mem_map], by simp [initState],
    by simp [initState], by simp [initState], by simp [initState], by simp [initState],
    by simp [initState], by simp [initState], by simp [initState], ?_, ?_,
    by simp [initState], by simp [initState], by simp [initState]⟩
  · show 1 ≤ orDefault mpOpt 10
    unfold orDefault
    split <;> omega
  · show (allPages ((List.range (orDefault mbOpt 5)).map _)).Nodup
    rw [allPages_fresh]
    exact List.nodup_nil
  · show ∀ p ∈ allPages ((List.range (orDefault mbOpt 5)).map _), p < 0
    rw [allPages_fresh]
    simp

/-! ### Configuration constancy -/

theorem serveAt_config (s : PoolState) (bs : List BrowserInfo) (i : Nat)
    (po : Bool) :
    (serveAt s bs i po).maxBrowsers = s.maxBrowsers ∧
    (serveAt s bs i po).maxPagesPerBrowser = s.maxPagesPerBrowser := by
  unfold serveAt
  split
  · exact ⟨rfl, rfl⟩
  · split <;> exact ⟨rfl, rfl⟩

theorem drain_config (lo po : Bool) (s : PoolState) :
    (drain lo po s).maxBrowsers = s.maxBrowsers ∧
    (drain lo po s).maxPagesPerBrowser = s.maxPagesPerBrowser := by
  unfold drain
  split
  · exact ⟨rfl, rfl⟩
  rcases scanLoop s.maxPagesPerBrowser s.browsers.length s.browsers 0
    s.closedPages s.closedBrowsers with ⟨bs, f, cp, cb⟩
  cases f with
  | some i => exact serveAt_config _ _ _ _
  | none =>
    dsimp only
    split
    · split
      · exact serveAt_config _ _ _ _
      · exact ⟨rfl, rfl⟩
    · exact ⟨rfl, rfl⟩

theorem step_config (ev : Event) (s : PoolState) :
    (step ev s).maxBrowsers = s.maxBrowsers ∧
    (step ev s).maxPagesPerBrowser = s.maxPagesPerBrowser := by
  cases ev with
  | acquire a lo po =>
    show (acquirePage a lo po s).maxBrowsers = s.maxBrowsers ∧
      (acquirePage a lo po s).maxPagesPerBrowser = s.maxPagesPerBrowser
    unfold acquirePage
    split
    · exact ⟨rfl, rfl⟩
    · exact drain_config lo po _
  | release pid lo po =>
    show (releasePage pid lo po s).maxBrowsers = s.maxBrowsers ∧
      (releasePage pid lo po s).maxPagesPerBrowser = s.maxPagesPerBrowser
    unfold releasePage
    cases hrm : removeFirstPage s.browsers pid with
    | some bs =>
      dsimp only
      exact drain_config lo po _
    | none =>
      dsimp only
      exact drain_config lo po _
  | timeoutFire e =>
    show (queueTimeoutFire e s).maxBrowsers = s.maxBrowsers ∧
      (queueTimeoutFire e s).maxPagesPerBrowser = s.maxPagesPerBrowser
    unfold queueTimeoutFire
    split <;> exact ⟨rfl, rfl⟩
  | abortSignal e =>
    show (abortFire e s).maxBrowsers = s.maxBrowsers ∧
      (abortFire e s).maxPagesPerBrowser = s.maxPagesPerBrowser
    unfold abortFire
    split <;> exact ⟨rfl, rfl⟩
  | drainQueue lo po => exact drain_config lo po s
  | disconnect i => exact ⟨rfl, rfl⟩
  | shutdown =>
    show (shutdown s).maxBrowsers = s.maxBrowsers ∧
      (shutdown s).maxPagesPerBrowser = s.maxPagesPerBrowser
    unfold shutdown
    rcases shutdownLoop s.browsers.length s.browsers 0 s.closedPages
      s.closedBrowsers with ⟨a, b, c⟩
    exact ⟨rfl, rfl⟩

theorem run_config (evs : List Event) (s : PoolState) :
    (run evs s).maxBrowsers = s.maxBrowsers ∧
    (run evs s).maxPagesPerBrowser = s.maxPagesPerBrowser := by
  induction evs generalizing s with
  | nil => exact ⟨rfl, rfl⟩
  | cons e t ih =>
    have h1 := step_config e s
    have h2 := ih (step e s)
    exact ⟨h2.1.trans h1.1, h2.2.trans h1.2⟩

theorem allPages_length_le (bs : List BrowserInfo) (mp : Nat)
    (h : ∀ b ∈ bs, b.pages.length ≤ mp) :
    (allPages bs).length ≤ bs.length * mp := by
  induction bs with
  | nil => simp [allPages_nil]
  | cons b t ih =>
    rw [allPages_cons, List.length_append]
    have h1 := h b (List.mem_cons_self _ _)
    have h2 := ih (fun x hx => h x (List.mem_cons_of_mem _ hx))
    rw [List.length_cons, Nat.succ_mul]
    omega

/-- Fields of `shutdown`: the engine list is emptied, the queue and the
resolution history are untouched (helper fact). -/
theorem shutdown_fields (s : PoolState) :
    (shutdown s).browsers = [] ∧ (shutdown s).queue = s.queue ∧
    (shutdown s).resolved = s.resolved := by
  unfold shutdown
  rcases shutdownLoop s.browsers.length s.browsers 0 s.closedPages
    s.closedBrowsers with ⟨a, b, c⟩
  exact ⟨rfl, rfl, rfl⟩

/-- `serveAt` only ever resolves the head of the queue (helper fact). -/
theorem serveAt_resolved_eq (s : PoolState) (bs : List BrowserInfo) (i : Nat)
    (po : Bool) (e : Nat) (o : Outcome) (r : List (Nat × Outcome))
    (hr : s.resolved = r)
    (h : (serveAt s bs i po).resolved = r ++ [(e, o)]) :
    s.queue.head? = some e := by
  subst hr
  unfold serveAt at h
  cases hq : s.queue with
  | nil =>
    rw [hq] at h
    dsimp only at h
    exact absurd h (by simp)
  | cons eid rest =>
    rw [hq] at h
    dsimp only at h
    split at h <;> dsimp only at h
    · have h2 := List.append_cancel_left h
      have h3 : eid = e := by
        injection h2 with h4 _
        injection h4
      rw [h3]
      rfl
    · have h2 := List.append_cancel_left h
      have h3 : eid = e := by
        injection h2 with h4 _
        injection h4
      rw [h3]
      rfl

/-- A `processQueue` run only ever resolves the head of the queue
(helper fact). -/
theorem drain_resolved_head (lo po : Bool) (s : PoolState) (e : Nat) (o : Outcome)
    (h : (drain lo po s).resolved = s.resolved ++ [(e, o)]) :
    s.queue.head? = some e := by
  unfold drain at h
  by_cases hq : s.queue.isEmpty
  · rw [if_pos hq] at h
    exact absurd h (by simp)
  · rw [if_neg hq] at h
    rcases hscan : scanLoop s.maxPagesPerBrowser s.browsers.length s.browsers 0
      s.closedPages s.closedBrowsers with ⟨bs, f, cp, cb⟩
    rw [hscan] at h
    cases f with
    | some i =>
      dsimp only at h
      exact serveAt_resolved_eq { s with closedPages := cp, closedBrowsers := cb } bs i po e o s.resolved rfl h
    | none =>
      dsimp only at h
      split at h
      · split at h
        · exact serveAt_resolved_eq { s with browsers := bs, closedPages := cp, closedBrowsers := cb, nextBrowserId := s.nextBrowserId + 1 } (bs ++ [⟨s.nextBrowserId, [], true⟩]) bs.length po e o s.resolved rfl h
        · exact absurd h (by simp)
      · exact absurd h (by simp)

/-! ### Claim theorems about the pool -/

/-- C1: for every sequence of pool events starting from the initialised
pool, no browser's active-page count ever exceeds `maxPagesPerBrowser`,
the number of browsers never exceeds `maxBrowsers`, and the total number
of active pages never exceeds `maxBrowsers * maxPagesPerBrowser`. -/
theorem pool_capacity_invariant (evs : List Event) (mbOpt mpOpt : Nat) :
    (∀ b ∈ (run evs (initState mbOpt mpOpt)).browsers,
      b.pages.length ≤ (initState mbOpt mpOpt).maxPagesPerBrowser) ∧
    (run evs (initState mbOpt mpOpt)).browsers.length ≤
      (initState mbOpt mpOpt).maxBrowsers ∧
    (allPages (run evs (initState mbOpt mpOpt)).browsers).length ≤
      (initState mbOpt mpOpt).maxBrowsers *
        (initState mbOpt mpOpt).maxPagesPerBrowser := by
  have hInv := run_inv evs (initState mbOpt mpOpt) (initState_inv mbOpt mpOpt)
  have hcfg := run_config evs (initState mbOpt mpOpt)
  refine ⟨?_, ?_, ?_⟩
  · intro b hb
    rw [← hcfg.2]
    exact hInv.pages_le b hb
  · rw [← hcfg.1]
    exact hInv.browsers_le
  · have h1 := allPages_length_le _ _ hInv.pages_le
    have h2 := mul_le_mul_right' hInv.browsers_le
      ((run evs (initState mbOpt mpOpt)).maxPagesPerBrowser)
    rw [← hcfg.1, ← hcfg.2]
    exact h1.trans h2

/-- C2: in any single pool step, if some entry's promise is resolved with a
lease (served), that entry is the head of the wait queue as it stood when
the step began — releases hand the freed slot to the oldest pending entry,
and an acquire arriving later (enqueued at the back) cannot take it; when
the queue was empty there was no older pending entry at all. -/
theorem queue_fifo_service (s : PoolState) (ev : Event) (e : Nat) (o : Outcome)
    (hres : (step ev s).resolved = s.resolved ++ [(e, o)])
    (hserved : o.isServed = true) :
    s.queue.head? = some e ∨ s.queue = [] := by
  cases ev with
  | acquire a lo po =>
    have hres : (acquirePage a lo po s).resolved = s.resolved ++ [(e, o)] := hres
    unfold acquirePage at hres
    cases a with
    | true =>
      rw [if_pos rfl] at hres
      dsimp only at hres
      have h2 := List.append_cancel_left hres
      have h3 : Outcome.abortedBeforeQueue = o := by
        injection h2 with h4 _
        injection h4
      rw [← h3] at hserved
      exact absurd hserved (by simp [Outcome.isServed])
    | false =>
      rw [if_neg Bool.false_ne_true] at hres
      have h1 := drain_resolved_head lo po _ e o hres
      cases hq : s.queue with
      | nil => exact Or.inr rfl
      | cons q0 t =>
        left
        have h3 : (s.queue ++ [s.nextEntryId]).head? = some e := h1
        rw [hq] at h3
        simpa using h3
  | release pid lo po =>
    have hres : (releasePage pid lo po s).resolved = s.resolved ++ [(e, o)] := hres
    unfold releasePage at hres
    cases hrm : removeFirstPage s.browsers pid with
    | some bs =>
      rw [hrm] at hres
      dsimp only at hres
      exact Or.inl (drain_resolved_head lo po
        { s with browsers := bs, closedPages := s.closedPages ++ [pid] } e o hres)
    | none =>
      rw [hrm] at hres
      dsimp only at hres
      exact Or.inl (drain_resolved_head lo po s e o hres)
  | timeoutFire eid =>
    have hres : (queueTimeoutFire eid s).resolved = s.resolved ++ [(e, o)] := hres
    unfold queueTimeoutFire at hres
    split at hres
    · dsimp only at hres
      have h2 := List.append_cancel_left hres
      have h3 : Outcome.timedOut = o := by
        injection h2 with h4 _
        injection h4
      rw [← h3] at hserved
      exact absurd hserved (by simp [Outcome.isServed])
    · exact absurd hres (by simp)
  | abortSignal eid =>
    have hres : (abortFire eid s).resolved = s.resolved ++ [(e, o)] := hres
    unfold abortFire at hres
    split at hres
    · dsimp only at hres
      have h2 := List.append_cancel_left hres
      have h3 : Outcome.aborted = o := by
        injection h2 with h4 _
        injection h4
      rw [← h3] at hserved
      exact absurd hserved (by simp [Outcome.isServed])
    · exact absurd hres (by simp)
  | drainQueue lo po =>
    exact Or.inl (drain_resolved_head lo po s e o hres)
  | disconnect i =>
    have hres : (disconnectAt i s).resolved = s.resolved ++ [(e, o)] := hres
    exact absurd hres (by simp [disconnectAt])
  | shutdown =>
    have hres : (shutdown s).resolved = s.resolved ++ [(e, o)] := hres
    rw [(shutdown_fields s).2.2] at hres
    exact absurd hres (by simp)

/-- C3 (counterexample): a queued entry can also fail with the
`newPage` error — a fourth outcome besides served / queue-timeout /
aborted.  With one browser and `newPage` failing, the entry created by
`acquirePage` is rejected with the page-creation error. -/
theorem entry_resolution_counterexample :
    (run [Event.acquire false true false] (initState 1 1)).resolved
      = [(0, Outcome.newPageFailed)] ∧
    0 ∈ (run [Event.acquire false true false] (initState 1 1)).enqueued ∧
    Outcome.newPageFailed.isServed = false ∧
    Outcome.newPageFailed ≠ Outcome.timedOut ∧
    Outcome.newPageFailed ≠ Outcome.aborted := by decide

/-- C3 (amended): every wait-queue entry is resolved at most once
(no double resolution), a resolved entry is no longer in the queue, and
an enqueued entry resolves only as served, queue-timeout, aborted, or
page-creation failure. -/
theorem entry_resolution_unique (evs : List Event) (mbOpt mpOpt : Nat) :
    ((run evs (initState mbOpt mpOpt)).resolved.map Prod.fst).Nodup ∧
    (∀ p ∈ (run evs (initState mbOpt mpOpt)).resolved,
      p.1 ∉ (run evs (initState mbOpt mpOpt)).queue) ∧
    (∀ p ∈ (run evs (initState mbOpt mpOpt)).resolved,
      p.1 ∈ (run evs (initState mbOpt mpOpt)).enqueued →
        p.2.isServed = true ∨ p.2 = Outcome.timedOut ∨ p.2 = Outcome.aborted ∨
          p.2 = Outcome.newPageFailed) := by
  have hInv := run_inv evs (initState mbOpt mpOpt) (initState_inv mbOpt mpOpt)
  refine ⟨hInv.resolved_nodup, ?_, ?_⟩
  · intro p hp hq
    exact hInv.queue_unresolved p.1 hq (List.mem_map_of_mem Prod.fst hp)
  · intro p hp hen
    have h1 := (hInv.resolved_outcome p hp).mp hen
    cases h2 : p.2 with
    | served pid => exact Or.inl rfl
    | timedOut => exact Or.inr (Or.inl rfl)
    | aborted => exact Or.inr (Or.inr (Or.inl rfl))
    | abortedBeforeQueue => exact absurd h2 h1
    | newPageFailed => exact Or.inr (Or.inr (Or.inr rfl))

/-- Trace reaching a state with one live browser holding page 1 and entry 2
still queued (used for the C6 counterexample). -/
def c6trace : List Event :=
  [Event.acquire false true true, Event.acquire false true true,
   Event.acquire false false true, Event.disconnect 0,
   Event.release 0 false true]

/-- C6 (counterexample): releasing a page that is in no pooled browser is
not free of effects on the engines — the `processQueue` run it triggers can
launch a new browser and serve a queued waiter, changing page lists. -/
theorem release_second_counterexample :
    99 ∉ allPages (run c6trace (initState 2 1)).browsers ∧
    allPages (run c6trace (initState 2 1)).browsers = [1] ∧
    allPages (step (Event.release 99 true true)
      (run c6trace (initState 2 1))).browsers = [1, 2] := by decide

/-- C6 (amended): releasing a page that no pooled browser holds performs no
splice and closes nothing: the call is exactly the `processQueue` run that
every release triggers.  In particular a second release of the same page
(already spliced out and closed by the first) never double-closes. -/
theorem releasePage_absent_is_drain (s : PoolState) (pid : Nat) (lo po : Bool)
    (h : pid ∉ allPages s.browsers) :
    releasePage pid lo po s = drain lo po s := by
  unfold releasePage
  rw [(removeFirstPage_eq_none_iff s.browsers pid).mpr h]

theorem releasePage_absent_is_drain_witness :
    (5 ∉ allPages (initState 1 1).browsers) ∧
    releasePage 5 true true (initState 1 1) = drain true true (initState 1 1) :=
  ⟨by decide, releasePage_absent_is_drain (initState 1 1) 5 true true (by decide)⟩

/-- Trace leaving an empty pool (sole browser evicted after disconnect)
with entry 1 queued after a failed lazy launch (used for C8). -/
def c8trace : List Event :=
  [Event.acquire false true true, Event.disconnect 0,
   Event.release 0 false true, Event.acquire false false true]

/-- C8 (counterexample): when the lazy browser launch fails, the caller
that triggered it is already enqueued, the launch error is not delivered
to it (its entry stays queued, unresolved), and it later fails only
through the queue timeout. -/
theorem launch_failure_counterexample :
    (run c8trace (initState 1 1)).queue = [1] ∧
    (run c8trace (initState 1 1)).resolved = [(0, Outcome.served 0)] ∧
    (step (Event.timeoutFire 1) (run c8trace (initState 1 1))).resolved
      = [(0, Outcome.served 0), (1, Outcome.timedOut)] := by decide

/-- C8 (amended): when the scan finds no usable browser and the lazy
launch fails, `processQueue` resolves nothing and leaves the queue
untouched: the triggering caller stays enqueued and is only failed later
by its own queue timeout or abort signal. -/
theorem launch_failure_no_notification (s : PoolState) (po : Bool)
    (hscan : (scanLoop s.maxPagesPerBrowser s.browsers.length s.browsers 0
      s.closedPages s.closedBrowsers).2.1 = none) :
    (drain false po s).queue = s.queue ∧
    (drain false po s).resolved = s.resolved := by
  unfold drain
  split
  · exact ⟨rfl, rfl⟩
  · rcases h2 : scanLoop s.maxPagesPerBrowser s.browsers.length s.browsers 0
      s.closedPages s.closedBrowsers with ⟨bs, f, cp, cb⟩
    rw [h2] at hscan
    dsimp only at hscan
    subst hscan
    dsimp only
    split
    · rw [if_neg Bool.false_ne_true]
      exact ⟨rfl, rfl⟩
    · exact ⟨rfl, rfl⟩

theorem launch_failure_no_notification_witness :
    ((scanLoop (run c8trace (initState 1 1)).maxPagesPerBrowser
      (run c8trace (initState 1 1)).browsers.length
      (run c8trace (initState 1 1)).browsers 0
      (run c8trace (initState 1 1)).closedPages
      (run c8trace (initState 1 1)).closedBrowsers).2.1 = none) ∧
    ((drain false true (run c8trace (initState 1 1))).queue
        = (run c8trace (initState 1 1)).queue ∧
      (drain false true (run c8trace (initState 1 1))).resolved
        = (run c8trace (initState 1 1)).resolved) :=
  ⟨by decide, launch_failure_no_notification (run c8trace (initState 1 1))
    true (by decide)⟩

/-- Trace filling a two-browser pool and queueing entry 2 (used for C9). -/
def c9trace : List Event :=
  [Event.acquire false true true, Event.acquire false true true,
   Event.acquire false true true]

/-- C9 (counterexample): `shutdown` leaves the pending entry 2 queued and
unresolved (no pool-shutting-down failure is delivered), and — because the
loop iterates over the array it splices — browser 1 is dropped from the
pool without its context (page 1) or the browser itself being closed. -/
theorem shutdown_counterexample :
    (shutdown (run c9trace (initState 2 1))).queue = [2] ∧
    (shutdown (run c9trace (initState 2 1))).resolved
      = (run c9trace (initState 2 1)).resolved ∧
    (shutdown (run c9trace (initState 2 1))).browsers = [] ∧
    1 ∉ (shutdown (run c9trace (initState 2 1))).closedPages ∧
    1 ∉ (shutdown (run c9trace (initState 2 1))).closedBrowsers := by decide

/-- C9 (amended): `shutdown` empties the pool's engine list but does not
touch the wait queue: pending entries stay queued and no entry is failed
by shutdown. -/
theorem shutdown_empties_pool_keeps_queue (s : PoolState) :
    (shutdown s).browsers = [] ∧ (shutdown s).queue = s.queue ∧
    (shutdown s).resolved = s.resolved := by
  unfold shutdown
  rcases shutdownLoop s.browsers.length s.browsers 0 s.closedPages
    s.closedBrowsers with ⟨a, b, c⟩
  exact ⟨rfl, rfl, rfl⟩

/-- State used as the C2 witness: one free browser, two queued entries. -/
def c2state : PoolState :=
  { maxBrowsers := 1,
    maxPagesPerBrowser := 1,
    browsers := [⟨0, [], true⟩],
    queue := [7, 8],
    resolved := [],
    enqueued := [7, 8],
    closedPages := [],
    closedBrowsers := [],
    nextEntryId := 9,
    nextPageId := 0,
    nextBrowserId := 1 }

theorem queue_fifo_service_witness :
    ((step (Event.drainQueue true true) c2state).resolved
        = c2state.resolved ++ [(7, Outcome.served 0)]) ∧
    (Outcome.served 0).isServed = true ∧
    (c2state.queue.head? = some 7 ∨ c2state.queue = []) :=
  ⟨by decide, by decide,
    queue_fifo_service c2state (Event.drainQueue true true) 7
      (Outcome.served 0) (by decide) (by decide)⟩

end BrowserPool

/-!
## The `/render` request lifecycle

Model of the express handler: per-request global timeout timer, body
validation, page acquisition, viewport / navigation / delay / screenshot
stages, the `res.sendFile` tail, the catch-block status classification and
the `finally` release.  The single-threaded event loop is modelled by
letting the global-timeout callback run in the gaps between `await`
points (`timerGap` says during which awaited stage the timer fires, if
any); each callback itself is atomic.  The environment (`Env`) supplies
the outcome of every awaited external operation.

The `signal.aborted` pre-check inside `acquirePage` cannot fire here: the
handler's AbortController is aborted only by the global-timeout callback,
which cannot run inside the synchronous prologue that calls `acquirePage`.
-/

namespace RenderHandler

/-- JS truthiness of an optional string body field (absent and the empty
string are falsy). -/
def truthy : Option String → Bool
  | none => false
  | some s => s != ""

/-- The `/render` request body fields the handler reads. -/
structure RenderReq where
  html : Option String
  url : Option String
  type : Option String
  delay : Nat
deriving DecidableEq, Repr

/-- The first validation: `(html && url) || (!html && !url)` fails. -/
def validXor (r : RenderReq) : Bool :=
  !((truthy r.html && truthy r.url) || (!truthy r.html && !truthy r.url))

/-- The second validation: `type !== 'png' && type !== 'jpeg'` fails
(after destructuring with default `'png'`). -/
def validType (r : RenderReq) : Bool :=
  r.type.getD "png" == "png" || r.type.getD "png" == "jpeg"

def invalidBodyMsg : String :=
  "Invalid request body: exactly one of html or url is required"

def invalidTypeMsg : String := "Invalid type: must be png or jpeg"

def globalTimeoutMsg : String := "Request timeout exceeded"

def opTimeoutMsg : String := "Operation timeout exceeded"

def internalErrMsg : String := "Internal server error"

def sendFailMsg : String := "Failed to send screenshot file."

def navTimeoutMsg : String := "Navigation timeout of 30000 ms exceeded"

/-- Is `p` a leading segment of `l`? -/
def isPrefixCh : List Char → List Char → Bool
  | [], _ => true
  | _ :: _, [] => false
  | a :: t, b :: u => a == b && isPrefixCh t u

/-- Does `p` occur contiguously inside `l`? -/
def isInfixCh (p : List Char) : List Char → Bool
  | [] => isPrefixCh p []
  | b :: rest => isPrefixCh p (b :: rest) || isInfixCh p rest

/-- `error.message.includes('timeout')` of the catch block. -/
def containsTimeout (s : String) : Bool :=
  isInfixCh "timeout".toList s.toList

/-- Per-request mutable state visible to the handler and its callbacks. -/
structure HState where
  headersSent : Bool
  responses : List (Nat × String)
  aborted : Bool
  timerActive : Bool
  page : Option Nat
  released : Nat
  acquireCalled : Bool
  sendFilePending : Bool
deriving DecidableEq, Repr

/-- State right after `setTimeout(...)` arms the global timer. -/
def initH : HState :=
  { headersSent := false, responses := [], aborted := false,
    timerActive := true, page := none, released := 0,
    acquireCalled := false, sendFilePending := false }

/-- The global-timeout callback: if headers are not out yet it aborts the
controller and sends the 504; otherwise it only logs. -/
def fireTimer (h : HState) : HState :=
  if h.timerActive then
    if h.headersSent then { h with timerActive := false }
    else
      { h with
          timerActive := false,
          aborted := true,
          headersSent := true,
          responses := h.responses ++ [(504, globalTimeoutMsg)] }
  else h

/-- How the awaited `browserPool.acquirePage` settles for this request. -/
inductive AcqOutcome where
  | ok (pid : Nat)
  | abortedInQueue
  | queueTimeout
  | engineFail (msg : String)
deriving DecidableEq, Repr

def AcqOutcome.isOk : AcqOutcome → Bool
  | .ok _ => true
  | _ => false

def AcqOutcome.isEngineFail : AcqOutcome → Bool
  | .engineFail _ => true
  | _ => false

/-- How the awaited `page.goto` / `page.setContent` settles. -/
inductive NavOutcome where
  | ok
  | navTimeout
  | navError (msg : String)
deriving DecidableEq, Repr

def NavOutcome.isNavError : NavOutcome → Bool
  | .navError _ => true
  | _ => false

/-- How the screenshot `Promise.race` settles. -/
inductive ShotOutcome where
  | ok
  | renderTimeout
  | abortReject
deriving DecidableEq, Repr

/-- The environment of one request: the body, when the global timer fires
(gap `k` = during awaited stage `k`; 6 = while the file is being sent,
before the send commits), and the outcome of each awaited operation. -/
structure Env where
  req : RenderReq
  timerGap : Option Nat
  acq : AcqOutcome
  viewport : Option String
  nav : NavOutcome
  shot : ShotOutcome
  sendFileErr : Bool
deriving DecidableEq, Repr

/-- Run the timer callback during awaited stage `k` when the environment
says it fires there. -/
def maybeFire (k : Nat) (env : Env) (h : HState) : HState :=
  if env.timerGap = some k then fireTimer h else h

/-- The try block of the handler from validation up to initiating
`res.sendFile`.  Returns the state plus the thrown error message, if the
block threw. -/
def mainFlow (env : Env) (h0 : HState) : HState × Option String :=
  if !validXor env.req then
    ({ h0 with
        headersSent := true,
        responses := h0.responses ++ [(400, invalidBodyMsg)] }, none)
  else if !validType env.req then
    ({ h0 with
        headersSent := true,
        responses := h0.responses ++ [(400, invalidTypeMsg)] }, none)
  else
    let h1 := maybeFire 1 env { h0 with acquireCalled := true }
    match env.acq with
    | .abortedInQueue => (h1, some "Request aborted while in queue")
    | .queueTimeout => (h1, some "Queue timeout exceeded")
    | .engineFail msg => (h1, some msg)
    | .ok pid =>
      let h2 := { h1 with page := some pid }
      if h2.aborted then (h2, some "Request aborted while acquiring page")
      else
        let h3 := maybeFire 2 env h2
        match env.viewport with
        | some msg => (h3, some msg)
        | none =>
          let h4 := maybeFire 3 env h3
          match env.nav with
          | .navTimeout => (h4, some navTimeoutMsg)
          | .navError msg => (h4, some msg)
          | .ok =>
            if env.req.delay > 0 && h4.aborted then
              (h4, some "Delay aborted before starting.")
            else
              let h5 := maybeFire 4 env h4
              if env.req.delay > 0 && h5.aborted then
                (h5, some "Delay aborted.")
              else if h5.aborted then
                (h5, some "Request aborted before screenshot")
              else
                let h6 := maybeFire 5 env h5
                match env.shot with
                | .renderTimeout =>
                  (h6, some "Screenshot render timeout exceeded")
                | .abortReject => (h6, some "Request aborted during screenshot")
                | .ok =>
                  if h6.aborted then (h6, some "Request aborted after screenshot")
                  else ({ h6 with sendFilePending := true }, none)

/-- Status/body classification of the catch block:
`(error.name === 'AbortError' || error.message.includes('timeout')) ? 504 : 500`
(no error reaching this catch carries the name `AbortError`). -/
def classifyStatus (msg : String) : Nat :=
  if containsTimeout msg then 504 else 500

def classifyBody (msg : String) : String :=
  if containsTimeout msg then opTimeoutMsg else internalErrMsg

/-- The catch block: clear the timer; answer only when headers are not
already out. -/
def catchStep (msg : String) (h : HState) : HState :=
  let h2 := { h with timerActive := false }
  if h2.headersSent then h2
  else
    { h2 with
        headersSent := true,
        responses := h2.responses ++ [(classifyStatus msg, classifyBody msg)] }

/-- The `finally` block: release the page when one was acquired. -/
def finallyStep (h : HState) : HState :=
  match h.page with
  | some _ => { h with released := h.released + 1 }
  | none => h

/-- The `res.sendFile` completion: its callback clears the timer; if a
response is already out the send fails and the guarded error branch sends
nothing; otherwise either the file goes out (200) or the guarded 500. -/
def commitSendFile (env : Env) (h : HState) : HState :=
  if h.sendFilePending then
    if h.headersSent then { h with sendFilePending := false, timerActive := false }
    else if env.sendFileErr then
      { h with
          sendFilePending := false,
          timerActive := false,
          headersSent := true,
          responses := h.responses ++ [(500, sendFailMsg)] }
    else
      { h with
          sendFilePending := false,
          timerActive := false,
          headersSent := true,
          responses := h.responses ++ [(200, "screenshot")] }
  else h

/-- The tail of the request: the still-pending `sendFile` commit and the
still-armed timer run in either order (gap 6 = timer first). -/
def finish (env : Env) (h : HState) : HState :=
  if env.timerGap = some 6 then commitSendFile env (fireTimer h)
  else fireTimer (commitSendFile env h)

/-- One whole `/render` request under environment `env`. -/
def runHandler (env : Env) : HState :=
  match mainFlow env initH with
  | (h, some msg) => finish env (finallyStep (catchStep msg h))
  | (h, none) => finish env (finallyStep h)

/-- The request got a lease: validation passed and `acquirePage`
resolved with a page. -/
def leaseAcquired (env : Env) : Bool :=
  validXor env.req && validType env.req && env.acq.isOk

/-! ### Primitive-step facts -/

@[simp]
theorem fireTimer_released (h : HState) : (fireTimer h).released = h.released := by
  unfold fireTimer
  split
  · split <;> rfl
  · rfl

@[simp]
theorem fireTimer_page (h : HState) : (fireTimer h).page = h.page := by
  unfold fireTimer
  split
  · split <;> rfl
  · rfl

@[simp]
theorem fireTimer_acquireCalled (h : HState) :
    (fireTimer h).acquireCalled = h.acquireCalled := by
  unfold fireTimer
  split
  · split <;> rfl
  · rfl

@[simp]
theorem maybeFire_released (k : Nat) (env : Env) (h : HState) :
    (maybeFire k env h).released = h.released := by
  unfold maybeFire
  split <;> simp

@[simp]
theorem maybeFire_page (k : Nat) (env : Env) (h : HState) :
    (maybeFire k env h).page = h.page := by
  unfold maybeFire
  split <;> simp

@[simp]
theorem maybeFire_acquireCalled (k : Nat) (env : Env) (h : HState) :
    (maybeFire k env h).acquireCalled = h.acquireCalled := by
  unfold maybeFire
  split <;> simp

@[simp]
theorem catchStep_released (msg : String) (h : HState) :
    (catchStep msg h).released = h.released := by
  unfold catchStep
  dsimp only
  split <;> rfl

@[simp]
theorem catchStep_page (msg : String) (h : HState) :
    (catchStep msg h).page = h.page := by
  unfold catchStep
  dsimp only
  split <;> rfl

@[simp]
theorem catchStep_acquireCalled (msg : String) (h : HState) :
    (catchStep msg h).acquireCalled = h.acquireCalled := by
  unfold catchStep
  dsimp only
  split <;> rfl

@[simp]
theorem finallyStep_page (h : HState) : (finallyStep h).page = h.page := by
  unfold finallyStep
  split <;> rfl

@[simp]
theorem finallyStep_responses (h : HState) :
    (finallyStep h).responses = h.responses := by
  unfold finallyStep
  split <;> rfl

@[simp]
theorem finallyStep_headersSent (h : HState) :
    (finallyStep h).headersSent = h.headersSent := by
  unfold finallyStep
  split <;> rfl

@[simp]
theorem finallyStep_acquireCalled (h : HState) :
    (finallyStep h).acquireCalled = h.acquireCalled := by
  unfold finallyStep
  split <;> rfl

theorem finallyStep_released (h : HState) :
    (finallyStep h).released = h.released + (if h.page.isSome then 1 else 0) := by
  unfold finallyStep
  cases h.page <;> simp

@[simp]
theorem commitSendFile_released (env : Env) (h : HState) :
    (commitSendFile env h).released = h.released := by
  unfold commitSendFile
  split
  · split
    · rfl
    · split <;> rfl
  · rfl

@[simp]
theorem commitSendFile_page (env : Env) (h : HState) :
    (commitSendFile env h).page = h.page := by
  unfold commitSendFile
  split
  · split
    · rfl
    · split <;> rfl
  · rfl

@[simp]
theorem commitSendFile_acquireCalled (env : Env) (h : HState) :
    (commitSendFile env h).acquireCalled = h.acquireCalled := by
  unfold commitSendFile
  split
  · split
    · rfl
    · split <;> rfl
  · rfl

@[simp]
theorem finish_released (env : Env) (h : HState) :
    (finish env h).released = h.released := by
  unfold finish
  split <;> simp

@[simp]
theorem finish_page (env : Env) (h : HState) : (finish env h).page = h.page := by
  unfold finish
  split <;> simp

@[simp]
theorem finish_acquireCalled (env : Env) (h : HState) :
    (finish env h).acquireCalled = h.acquireCalled := by
  unfold finish
  split <;> simp

/-- The response discipline: before any headers go out there is no
response, and never more than one response. -/
def respInv (h : HState) : Prop :=
  (h.headersSent = false → h.responses = []) ∧ h.responses.length ≤ 1

theorem respInv_fireTimer {h : HState} (hi : respInv h) : respInv (fireTimer h) := by
  obtain ⟨h1, h2⟩ := hi
  unfold fireTimer
  by_cases ha : h.timerActive = true
  · rw [if_pos ha]
    by_cases hh : h.headersSent = true
    · rw [if_pos hh]
      exact ⟨h1, h2⟩
    · rw [if_neg hh]
      have hf : h.headersSent = false := by
        revert hh
        cases h.headersSent <;> simp
      refine ⟨by simp, ?_⟩
      show (h.responses ++ [(504, globalTimeoutMsg)]).length ≤ 1
      rw [h1 hf]
      simp
  · rw [if_neg ha]
    exact ⟨h1, h2⟩

theorem respInv_maybeFire {h : HState} (k : Nat) (env : Env) (hi : respInv h) :
    respInv (maybeFire k env h) := by
  unfold maybeFire
  split
  · exact respInv_fireTimer hi
  · exact hi

theorem respInv_catchStep {h : HState} (msg : String) (hi : respInv h) :
    respInv (catchStep msg h) := by
  obtain ⟨h1, h2⟩ := hi
  unfold catchStep
  dsimp only
  by_cases hh : h.headersSent = true
  · rw [if_pos hh]
    exact ⟨h1, h2⟩
  · rw [if_neg hh]
    have hf : h.headersSent = false := by
      revert hh
      cases h.headersSent <;> simp
    refine ⟨by simp, ?_⟩
    show (h.responses ++ [(classifyStatus msg, classifyBody msg)]).length ≤ 1
    rw [h1 hf]
    simp

theorem respInv_finallyStep {h : HState} (hi : respInv h) :
    respInv (finallyStep h) := by
  obtain ⟨h1, h2⟩ := hi
  exact ⟨by simpa using h1, by simpa using h2⟩

theorem respInv_commitSendFile {h : HState} (env : Env) (hi : respInv h) :
    respInv (commitSendFile env h) := by
  obtain ⟨h1, h2⟩ := hi
  unfold commitSendFile
  by_cases hp : h.sendFilePending = true
  · rw [if_pos hp]
    by_cases hh : h.headersSent = true
    · rw [if_pos hh]
      exact ⟨h1, h2⟩
    · rw [if_neg hh]
      have hf : h.headersSent = false := by
        revert hh
        cases h.headersSent <;> simp
      by_cases hs : env.sendFileErr = true
      · rw [if_pos hs]
        refine ⟨by simp, ?_⟩
        show (h.responses ++ [(500, sendFailMsg)]).length ≤ 1
        rw [h1 hf]
        simp
      · rw [if_neg hs]
        refine ⟨by simp, ?_⟩
        show (h.responses ++ [(200, "screenshot")]).length ≤ 1
        rw [h1 hf]
        simp
  · rw [if_neg hp]
    exact ⟨h1, h2⟩

theorem respInv_finish {h : HState} (env : Env) (hi : respInv h) :
    respInv (finish env h) := by
  unfold finish
  split
  · exact respInv_commitSendFile env (respInv_fireTimer hi)
  · exact respInv_fireTimer (respInv_commitSendFile env hi)

theorem respInv_setPage {h : HState} (p : Option Nat) (hi : respInv h) :
    respInv { h with page := p } := by
  obtain ⟨a, b⟩ := hi
  exact ⟨a, b⟩

theorem respInv_setPending {h : HState} (hi : respInv h) :
    respInv { h with sendFilePending := true } := by
  obtain ⟨a, b⟩ := hi
  exact ⟨a, b⟩

theorem mainFlow_core (env : Env) :
    (mainFlow env initH).1.released = 0 ∧
    (mainFlow env initH).1.page.isSome = leaseAcquired env ∧
    (mainFlow env initH).1.acquireCalled
      = (validXor env.req && validType env.req) := by
  unfold mainFlow leaseAcquired
  by_cases hx : validXor env.req
  · by_cases ht : validType env.req
    · simp only [hx, ht, Bool.not_true, Bool.false_eq_true, if_false]
      cases env.acq with
      | abortedInQueue => simp [AcqOutcome.isOk, initH]
      | queueTimeout => simp [AcqOutcome.isOk, initH]
      | engineFail msg => simp [AcqOutcome.isOk, initH]
      | ok pid =>
        dsimp only
        repeat' split
        all_goals simp [AcqOutcome.isOk, initH]
    · simp [hx, ht, initH]
  · simp [hx, initH]

theorem mainFlow_respInv (env : Env) : respInv (mainFlow env initH).1 := by
  have base : respInv { initH with acquireCalled := true } :=
    ⟨fun _ => rfl, by simp [initH]⟩
  unfold mainFlow
  by_cases hx : validXor env.req
  · by_cases ht : validType env.req
    · simp only [hx, ht, Bool.not_true, Bool.false_eq_true, if_false]
      cases env.acq with
      | abortedInQueue => exact respInv_maybeFire 1 env base
      | queueTimeout => exact respInv_maybeFire 1 env base
      | engineFail msg => exact respInv_maybeFire 1 env base
      | ok pid =>
        have r1 := respInv_maybeFire 1 env base
        have r2 := respInv_setPage (some pid) r1
        have r3 := respInv_maybeFire 2 env r2
        have r4 := respInv_maybeFire 3 env r3
        have r5 := respInv_maybeFire 4 env r4
        have r6 := respInv_maybeFire 5 env r5
        dsimp only
        repeat' split
        all_goals first
          | exact r2
          | exact r3
          | exact r4
          | exact r5
          | exact r6
    · simp only [hx, ht, Bool.not_true, Bool.false_eq_true, if_false,
        Bool.not_false, if_true]
      exact ⟨by simp, by simp [initH]⟩
  · simp only [hx, Bool.not_false, if_true]
    exact ⟨by simp, by simp [initH]⟩

/-- C5: at most one HTTP response (status and body) is ever sent per
`/render` request, whatever the environment does and whenever the global
timeout fires: every send is guarded by the headers-sent flag, and the
flag is set atomically with the send in the same event-loop callback. -/
theorem at_most_one_response (env : Env) :
    (runHandler env).responses.length ≤ 1 := by
  unfold runHandler
  rcases hm : mainFlow env initH with ⟨h, exc⟩
  have hi : respInv h := by
    have h2 := mainFlow_respInv env
    rw [hm] at h2
    exact h2
  cases exc with
  | some msg =>
    dsimp only
    exact (respInv_finish env (respInv_finallyStep (respInv_catchStep msg hi))).2
  | none =>
    dsimp only
    exact (respInv_finish env (respInv_finallyStep hi)).2

/-- C4: for every `/render` request, `releasePage` is invoked exactly once
when and only when the request acquired a lease (validation passed and
`acquirePage` resolved with a page), on every exit path — success, any
thrown error, and the global timeout firing at any await point. -/
theorem lease_released_exactly_once (env : Env) :
    (runHandler env).released = (if leaseAcquired env then 1 else 0) ∧
    (runHandler env).page.isSome = leaseAcquired env := by
  unfold runHandler
  rcases hm : mainFlow env initH with ⟨h, exc⟩
  have hcore := mainFlow_core env
  rw [hm] at hcore
  obtain ⟨hrel, hpage, _⟩ := hcore
  dsimp only at hrel hpage
  cases exc with
  | some msg =>
    dsimp only
    refine ⟨?_, ?_⟩
    · rw [finish_released, finallyStep_released, catchStep_released,
        catchStep_page, hrel, hpage]
      cases leaseAcquired env <;> simp
    · rw [finish_page, finallyStep_page, catchStep_page, hpage]
  | none =>
    dsimp only
    refine ⟨?_, ?_⟩
    · rw [finish_released, finallyStep_released, hrel, hpage]
      cases leaseAcquired env <;> simp
    · rw [finish_page, finallyStep_page, hpage]

/-- C7: a request whose body fails validation (not exactly one truthy
content source, or a type other than png/jpeg) is answered with a single
400 response, and the pool is never touched: `acquirePage` is not called
and no lease is ever acquired or released. -/
theorem invalid_request_rejected (env : Env)
    (h : (validXor env.req && validType env.req) = false) :
    (runHandler env).responses.map Prod.fst = [400] ∧
    (runHandler env).acquireCalled = false ∧
    (runHandler env).released = 0 ∧
    (runHandler env).page = none := by
  unfold runHandler mainFlow
  by_cases hx : validXor env.req
  · have ht : validType env.req = false := by
      rw [hx] at h
      simpa using h
    simp only [hx, ht, Bool.not_true, Bool.false_eq_true, if_false,
      Bool.not_false, if_true]
    unfold finish finallyStep commitSendFile fireTimer
    all_goals simp_all [initH]
  · have hx2 : validXor env.req = false := by
      revert hx
      cases validXor env.req <;> simp
    simp only [hx2, Bool.not_false, if_true]
    unfold finish finallyStep commitSendFile fireTimer
    all_goals simp_all [initH]

theorem invalid_request_rejected_witness :
    ((validXor (RenderReq.mk none none none 0)
        && validType (RenderReq.mk none none none 0)) = false) ∧
    ((runHandler (Env.mk (RenderReq.mk none none none 0) none
        AcqOutcome.queueTimeout none NavOutcome.ok ShotOutcome.ok
        false)).responses.map Prod.fst = [400] ∧
      (runHandler (Env.mk (RenderReq.mk none none none 0) none
        AcqOutcome.queueTimeout none NavOutcome.ok ShotOutcome.ok
        false)).acquireCalled = false ∧
      (runHandler (Env.mk (RenderReq.mk none none none 0) none
        AcqOutcome.queueTimeout none NavOutcome.ok ShotOutcome.ok
        false)).released = 0 ∧
      (runHandler (Env.mk (RenderReq.mk none none none 0) none
        AcqOutcome.queueTimeout none NavOutcome.ok ShotOutcome.ok
        false)).page = none) :=
  ⟨by decide,
    invalid_request_rejected
      (Env.mk (RenderReq.mk none none none 0) none AcqOutcome.queueTimeout
        none NavOutcome.ok ShotOutcome.ok false) (by decide)⟩

/-! ### Status classification (C10) -/

/-- Engine-failure messages do not spuriously claim to be timeouts. -/
def acqMsgOk : AcqOutcome → Bool
  | .engineFail msg => !containsTimeout msg
  | _ => true

def vpMsgOk : Option String → Bool
  | some msg => !containsTimeout msg
  | none => true

def navMsgOk : NavOutcome → Bool
  | .navError msg => !containsTimeout msg
  | _ => true

def gapLe5 : Option Nat → Bool
  | some k => decide (1 ≤ k) && decide (k ≤ 5)
  | none => false

def gapLe6 : Option Nat → Bool
  | some k => decide (1 ≤ k) && decide (k ≤ 6)
  | none => false

/-- Environment consistency: an in-queue abort only happens when the
global timer fired during the queue wait; a screenshot abort-rejection
only when the timer fired during some earlier awaited stage; engine
failure messages (page creation, viewport, non-timeout navigation
errors) do not contain the substring `timeout`. -/
def Env.wf (env : Env) : Prop :=
  (env.acq = AcqOutcome.abortedInQueue → env.timerGap = some 1) ∧
  acqMsgOk env.acq = true ∧
  vpMsgOk env.viewport = true ∧
  navMsgOk env.nav = true ∧
  (env.shot = ShotOutcome.abortReject → gapLe5 env.timerGap = true)

instance (env : Env) : Decidable (Env.wf env) := by
  unfold Env.wf
  infer_instance

/-- C10: for every validated `/render` request under a consistent
environment, each failure class is surfaced to the caller as exactly one
error response whose status distinguishes timeout causes (HTTP 504:
queue timeout, navigation timeout, render timeout, global timeout — the
latter also covering in-queue aborts, which only the global timeout
triggers) from non-timeout internal failures (HTTP 500: engine failure
on page creation, viewport or navigation errors, file-send failure). -/
theorem failure_status_classification (env : Env) (hwf : Env.wf env)
    (hv : (validXor env.req && validType env.req) = true) :
    (env.timerGap = none → env.acq = AcqOutcome.queueTimeout →
      (runHandler env).responses = [(504, opTimeoutMsg)]) ∧
    (env.timerGap = none → env.acq.isEngineFail = true →
      (runHandler env).responses = [(500, internalErrMsg)]) ∧
    (env.timerGap = none → env.acq.isOk = true → env.viewport.isSome = true →
      (runHandler env).responses = [(500, internalErrMsg)]) ∧
    (env.timerGap = none → env.acq.isOk = true → env.viewport = none →
      env.nav = NavOutcome.navTimeout →
      (runHandler env).responses = [(504, opTimeoutMsg)]) ∧
    (env.timerGap = none → env.acq.isOk = true → env.viewport = none →
      env.nav.isNavError = true →
      (runHandler env).responses = [(500, internalErrMsg)]) ∧
    (env.timerGap = none → env.acq.isOk = true → env.viewport = none →
      env.nav = NavOutcome.ok → env.shot = ShotOutcome.renderTimeout →
      (runHandler env).responses = [(504, opTimeoutMsg)]) ∧
    (env.timerGap = none → env.acq.isOk = true → env.viewport = none →
      env.nav = NavOutcome.ok → env.shot = ShotOutcome.ok →
      env.sendFileErr = true →
      (runHandler env).responses = [(500, sendFailMsg)]) ∧
    (gapLe6 env.timerGap = true → env.acq.isOk = true → env.viewport = none →
      env.nav = NavOutcome.ok →
      (env.shot = ShotOutcome.ok ∨ env.shot = ShotOutcome.abortReject) →
      env.sendFileErr = false →
      (runHandler env).responses = [(504, globalTimeoutMsg)]) ∧
    (env.acq = AcqOutcome.abortedInQueue →
      (runHandler env).responses = [(504, globalTimeoutMsg)]) := by
  obtain ⟨hx, ht⟩ := Bool.and_eq_true_iff.mp hv
  obtain ⟨hwf1, hwf2, hwf3, hwf4, hwf5⟩ := hwf
  obtain ⟨req, tg, acq, vp, nav, shot, sf⟩ := env
  dsimp only at hx ht hwf1 hwf2 hwf3 hwf4 hwf5 ⊢
  have hqt : containsTimeout "Queue timeout exceeded" = true := by decide
  have hnt : containsTimeout navTimeoutMsg = true := by decide
  have hrt : containsTimeout "Screenshot render timeout exceeded" = true := by
    decide
  refine ⟨?_, ?_, ?_, ?_, ?_, ?_, ?_, ?_, ?_⟩
  · rintro rfl rfl
    simp [runHandler, mainFlow, hx, ht, maybeFire, catchStep, finallyStep,
      finish, commitSendFile, fireTimer, initH, classifyStatus, classifyBody,
      hqt]
  · rintro rfl hef
    cases acq with
    | engineFail msg =>
      have hmt : containsTimeout msg = false := by
        simpa [acqMsgOk] using hwf2
      simp [runHandler, mainFlow, hx, ht, maybeFire, catchStep, finallyStep,
        finish, commitSendFile, fireTimer, initH, classifyStatus, classifyBody,
        hmt]
    | ok pid => simp [AcqOutcome.isEngineFail] at hef
    | abortedInQueue => simp [AcqOutcome.isEngineFail] at hef
    | queueTimeout => simp [AcqOutcome.isEngineFail] at hef
  · rintro rfl hok hvp
    cases acq with
    | ok pid =>
      cases vp with
      | some msg =>
        have hmt : containsTimeout msg = false := by
          simpa [vpMsgOk] using hwf3
        simp [runHandler, mainFlow, hx, ht, maybeFire, catchStep, finallyStep,
          finish, commitSendFile, fireTimer, initH, classifyStatus,
          classifyBody, hmt]
      | none => simp at hvp
    | abortedInQueue => simp [AcqOutcome.isOk] at hok
    | queueTimeout => simp [AcqOutcome.isOk] at hok
    | engineFail msg => simp [AcqOutcome.isOk] at hok
  · rintro rfl hok rfl rfl
    cases acq with
    | ok pid =>
      simp [runHandler, mainFlow, hx, ht, maybeFire, catchStep, finallyStep,
        finish, commitSendFile, fireTimer, initH, classifyStatus, classifyBody,
        hnt]
    | abortedInQueue => simp [AcqOutcome.isOk] at hok
    | queueTimeout => simp [AcqOutcome.isOk] at hok
    | engineFail msg => simp [AcqOutcome.isOk] at hok
  · rintro rfl hok rfl hnav
    cases acq with
    | ok pid =>
      cases nav with
      | navError msg =>
        have hmt : containsTimeout msg = false := by
          simpa [navMsgOk] using hwf4
        simp [runHandler, mainFlow, hx, ht, maybeFire, catchStep, finallyStep,
          finish, commitSendFile, fireTimer, initH, classifyStatus,
          classifyBody, hmt]
      | ok => simp [NavOutcome.isNavError] at hnav
      | navTimeout => simp [NavOutcome.isNavError] at hnav
    | abortedInQueue => simp [AcqOutcome.isOk] at hok
    | queueTimeout => simp [AcqOutcome.isOk] at hok
    | engineFail msg => simp [AcqOutcome.isOk] at hok
  · rintro rfl hok rfl rfl rfl
    cases acq with
    | ok pid =>
      simp [runHandler, mainFlow, hx, ht, maybeFire, catchStep, finallyStep,
        finish, commitSendFile, fireTimer, initH, classifyStatus, classifyBody,
        hrt]
    | abortedInQueue => simp [AcqOutcome.isOk] at hok
    | queueTimeout => simp [AcqOutcome.isOk] at hok
    | engineFail msg => simp [AcqOutcome.isOk] at hok
  · rintro rfl hok rfl rfl rfl rfl
    cases acq with
    | ok pid =>
      simp [runHandler, mainFlow, hx, ht, maybeFire, catchStep, finallyStep,
        finish, commitSendFile, fireTimer, initH, classifyStatus, classifyBody]
    | abortedInQueue => simp [AcqOutcome.isOk] at hok
    | queueTimeout => simp [AcqOutcome.isOk] at hok
    | engineFail msg => simp [AcqOutcome.isOk] at hok
  · intro hgap hok hvp hnav hshot hsf
    subst hvp
    subst hnav
    subst hsf
    cases acq with
    | abortedInQueue => simp [AcqOutcome.isOk] at hok
    | queueTimeout => simp [AcqOutcome.isOk] at hok
    | engineFail msg => simp [AcqOutcome.isOk] at hok
    | ok pid =>
      cases tg with
      | none => simp [gapLe6] at hgap
      | some k =>
        have hk : 1 ≤ k ∧ k ≤ 6 := by simpa [gapLe6] using hgap
        rcases hshot with rfl | rfl
        · obtain ⟨hk1, hk2⟩ := hk
          interval_cases k <;>
            by_cases hd : 0 < req.delay <;>
              simp [runHandler, mainFlow, hx, ht, maybeFire, catchStep,
                finallyStep, finish, commitSendFile, fireTimer, initH,
                classifyStatus, classifyBody, hd]
        · have hk5 : gapLe5 (some k) = true := hwf5 rfl
          have hk5b : 1 ≤ k ∧ k ≤ 5 := by simpa [gapLe5] using hk5
          obtain ⟨hk1, hk2⟩ := hk5b
          interval_cases k <;>
            by_cases hd : 0 < req.delay <;>
              simp [runHandler, mainFlow, hx, ht, maybeFire, catchStep,
                finallyStep, finish, commitSendFile, fireTimer, initH,
                classifyStatus, classifyBody, hd]
  · rintro rfl
    have htg : tg = some 1 := hwf1 rfl
    subst htg
    simp [runHandler, mainFlow, hx, ht, maybeFire, catchStep, finallyStep,
      finish, commitSendFile, fireTimer, initH, classifyStatus, classifyBody]

/-- Environment used as the C10 witness: a valid body whose acquisition
fails with the queue timeout. -/
def c10env : Env :=
  { req := { html := some "<p>x</p>", url := none, type := none, delay := 0 }
    timerGap := none
    acq := AcqOutcome.queueTimeout
    viewport := none
    nav := NavOutcome.ok
    shot := ShotOutcome.ok
    sendFileErr := false }

theorem failure_status_classification_witness :
    Env.wf c10env ∧ ((validXor c10env.req && validType c10env.req) = true) ∧
    (runHandler c10env).responses = [(504, opTimeoutMsg)] :=
  ⟨by decide, by decide,
    (failure_status_classification c10env (by decide) (by decide)).1 rfl rfl⟩

end RenderHandler

end ScreenshotService
